import Mathlib

/-!
Verification of the GitHub-User-Activity-CLI repository.

This file gives a shallow embedding of the two utilities in the repository,
`task-cli.py` (a JSON-file-backed task tracker) and `github-activity.py`
(a GitHub user-activity fetcher), and proves or refutes the specified
properties about them.

Conventions of the embedding:
- Python JSON values are modelled by the inductive type `Json`
  (objects as association lists in insertion order, numbers restricted to
  integers, which is all this program produces or reads).
- Python exceptions are modelled with `Except`: a raised exception is an
  `Except.error` carrying the exception kind/message.
- Machine-level details that the code never relies on (Unicode
  capitalization beyond ASCII, float payloads) are noted at the definition
  that simplifies them.
-/

/-- JSON values, as handed around by the Python code. Objects keep
insertion order, numbers are integers (the only numbers this program
produces: task ids). -/
inductive Json : Type where
  | null : Json
  | bool (b : Bool) : Json
  | num (n : Int) : Json
  | str (s : String) : Json
  | arr (l : List Json) : Json
  | obj (l : List (String × Json)) : Json

/-- Python truthiness (`if x:`) of a JSON value: `None`, `False`, `0`,
empty string, empty list, empty dict are falsy. -/
def pyTruthy : Json → Bool
  | Json.null => false
  | Json.bool b => b
  | Json.num n => n != 0
  | Json.str s => s.data != []
  | Json.arr l => !l.isEmpty
  | Json.obj l => !l.isEmpty

/-- List of ASCII decimal digits of a natural number, most significant
first, as produced by Python `repr` of a nonnegative int. -/
def natReprL (n : Nat) : List Char :=
  if n = 0 then ['0']
  else (Nat.digits 10 n).reverse.map (fun d => Char.ofNat (48 + d))

/-- Python `repr` of an int (also what `json.dump` writes for an int). -/
def intReprL (n : Int) : List Char :=
  if n < 0 then '-' :: natReprL n.natAbs else natReprL n.toNat

/-- Python `str` of an int. -/
def intRepr (n : Int) : String := String.mk (intReprL n)

mutual

/-- Python `repr` of a JSON value (used by `str` for non-string values
reaching an f-string). String contents are rendered between single quotes
without re-escaping, a simplification Python only deviates from for
strings containing quotes or control characters; no theorem below
depends on this case. -/
def pyRepr : Json → String
  | Json.null => "None"
  | Json.bool b => if b then "True" else "False"
  | Json.num n => intRepr n
  | Json.str s => String.mk ('\x27' :: s.data ++ ['\x27'])
  | Json.arr l => "[" ++ pyReprList l ++ "]"
  | Json.obj l => "\x7b" ++ pyReprObj l ++ "\x7d"

/-- Comma-separated `repr`s of list elements. -/
def pyReprList : List Json → String
  | [] => ""
  | [x] => pyRepr x
  | x :: xs => pyRepr x ++ ", " ++ pyReprList xs

/-- Comma-separated `repr`s of dict entries. -/
def pyReprObj : List (String × Json) → String
  | [] => ""
  | [(k, v)] => String.mk ('\x27' :: k.data ++ ['\x27']) ++ ": " ++ pyRepr v
  | (k, v) :: xs =>
      String.mk ('\x27' :: k.data ++ ['\x27']) ++ ": " ++ pyRepr v ++ ", " ++ pyReprObj xs

end

/-- Python `str` applied to a JSON value, as f-string interpolation does. -/
def pyStr : Json → String
  | Json.str s => s
  | v => pyRepr v

/-- Python `d.get(k, default)` on a value that is supposed to be a dict:
returns the stored value (even `None`) when the key is present, the
default when absent, and raises `AttributeError` when the receiver is not
a dict. -/
def pyGet (v : Json) (k : String) (d : Json) : Except String Json :=
  match v with
  | Json.obj l => Except.ok ((l.lookup k).getD d)
  | _ => Except.error "AttributeError: object has no attribute get"

/-- Python `len` of a JSON value: defined for lists, strings and dicts,
raises `TypeError` otherwise. -/
def pyLen (v : Json) : Except String Nat :=
  match v with
  | Json.arr l => Except.ok l.length
  | Json.str s => Except.ok s.data.length
  | Json.obj l => Except.ok l.length
  | _ => Except.error "TypeError: object has no len"

/-- Python `str.capitalize`: first character uppercased, the rest
lowercased (ASCII model of the Unicode operation; every string the
theorems below feed it is ASCII). -/
def pyCapitalize (s : String) : String :=
  match s.data with
  | [] => ""
  | c :: cs => String.mk (c.toUpper :: cs.map Char.toLower)

/-- Python `.capitalize()` on a JSON value: only strings have the method,
anything else (including `None`) raises `AttributeError`. -/
def pyCapJ (v : Json) : Except String String :=
  match v with
  | Json.str s => Except.ok (pyCapitalize s)
  | _ => Except.error "AttributeError: object has no attribute capitalize"

/-- Python slice `s[:i]` on a string, with Python semantics for a
negative stop index (counts from the end, clamped at 0). -/
def pySliceStr (s : String) (i : Int) : String :=
  String.mk (s.data.take ((if i < 0 then (s.data.length : Int) + i else i).toNat))

/-- Python slice `l[:i]` on a list. -/
def pySliceList {α : Type} (l : List α) (i : Int) : List α :=
  l.take ((if i < 0 then (l.length : Int) + i else i).toNat)

-- ==========================
-- task-cli.py: the task store
-- ==========================

namespace TaskCli

/-- A task record as constructed by `add_task` in `task-cli.py`:
`{'id': ..., 'description': ..., 'status': ..., 'created_at': ...,
'updated_at': ...}`. -/
structure Task : Type where
  id : Int
  description : String
  status : String
  created_at : String
  updated_at : String
deriving DecidableEq, Repr

/-- `generate_id` from `task-cli.py`: `max(task['id'] for task in tasks) + 1`
for a nonempty store, `1` for an empty one. -/
def generate_id (tasks : List Task) : Int :=
  match tasks with
  | [] => 1
  | t :: ts => (ts.foldl (fun m u => max m u.id) t.id) + 1

/-- `add_task` from `task-cli.py`, with the module-level timestamp `ts`
passed explicitly: appends a fresh task with status `todo` and returns
the new store (which the source then saves) together with the new id it
reports. -/
def add_task (tasks : List Task) (description : String) (ts : String) :
    List Task × Int :=
  let task : Task :=
    { id := generate_id tasks, description := description, status := "todo"
      created_at := ts, updated_at := ts }
  (tasks ++ [task], task.id)

/-- Outcome reported by `update_task`. -/
inductive UpdOutcome : Type where
  | updated : UpdOutcome
  | noChanges : UpdOutcome
  | notFound : UpdOutcome
deriving DecidableEq, Repr

/-- Python truthiness of an optional string argument (`if description:`):
`None` and the empty string are falsy. -/
def optTruthy : Option String → Bool
  | none => false
  | some s => s.data != []

/-- The field assignments `update_task` performs on the matched task
(before the `updated_at` refresh). -/
def applyFields (t : Task) (description status : Option String) : Task :=
  let t1 := if optTruthy description then
    { t with description := description.getD "" } else t
  if optTruthy status then { t1 with status := status.getD "" } else t1

/-- `update_task` from `task-cli.py` (pure core): scans for the first task
with the given id; applies the provided truthy fields; when something
changed, refreshes `updated_at` with `now` and saves. Returns the
in-memory list, the reported outcome, and whether `save_tasks` was
called. -/
def update_task (tasks : List Task) (task_id : Int)
    (description status : Option String) (now : String) :
    List Task × UpdOutcome × Bool :=
  match tasks with
  | [] => ([], UpdOutcome.notFound, false)
  | t :: rest =>
    if t.id = task_id then
      if optTruthy description || optTruthy status then
        ({ applyFields t description status with updated_at := now } :: rest,
          UpdOutcome.updated, true)
      else (t :: rest, UpdOutcome.noChanges, false)
    else
      let r := update_task rest task_id description status now
      (t :: r.1, r.2.1, r.2.2)

/-- Outcome reported by `delete_task`. -/
inductive DelOutcome : Type where
  | deleted : DelOutcome
  | notFound : DelOutcome
deriving DecidableEq, Repr

/-- `delete_task` from `task-cli.py` (pure core): filters out the matching
id; when the length is unchanged reports not-found and does not save.
Returns the filtered in-memory list, the outcome, and whether
`save_tasks` was called. -/
def delete_task (tasks : List Task) (task_id : Int) :
    List Task × DelOutcome × Bool :=
  let remaining := tasks.filter (fun t => t.id != task_id)
  if remaining.length = tasks.length then (tasks, DelOutcome.notFound, false)
  else (remaining, DelOutcome.deleted, true)

/-- What `list_tasks` renders: either the not-found message or the
sequence of task lines, in order. -/
inductive ListOutput : Type where
  | noTasksFound : ListOutput
  | lines (tasks : List Task) : ListOutput
deriving DecidableEq, Repr

/-- `list_tasks` from `task-cli.py` (pure core): filters by status when a
truthy status is given, and reports `No tasks found.` when the resulting
selection is empty. -/
def list_tasks (tasks : List Task) (status : Option String) : ListOutput :=
  let sel := if optTruthy status then
    tasks.filter (fun t => t.status == status.getD "") else tasks
  if sel.isEmpty then ListOutput.noTasksFound else ListOutput.lines sel

/-- One CLI invocation against the store, carrying the wall-clock
timestamp the invocation would observe. -/
inductive Cmd : Type where
  | add (description ts : String) : Cmd
  | update (id : Int) (description status : Option String) (now : String) : Cmd
  | delete (id : Int) : Cmd
deriving DecidableEq, Repr

/-- Effect of one command on the persisted store (the saved file), per
`task-cli.py`: a command that does not save leaves the store as it was. -/
def execCmd (tasks : List Task) : Cmd → List Task
  | Cmd.add d ts => (add_task tasks d ts).1
  | Cmd.update i d st now =>
    let r := update_task tasks i d st now
    if r.2.2 then r.1 else tasks
  | Cmd.delete i =>
    let r := delete_task tasks i
    if r.2.2 then r.1 else tasks

/-- Trace of the `add` operations in a command sequence: for each `add`,
the store at the moment of creation paired with the id `add_task`
assigned there. -/
def addTraces (tasks : List Task) : List Cmd → List (List Task × Int)
  | [] => []
  | Cmd.add d ts :: cs =>
      (tasks, (add_task tasks d ts).2) :: addTraces (execCmd tasks (Cmd.add d ts)) cs
  | c :: cs => addTraces (execCmd tasks c) cs

/-- The ids assigned by the `add` operations of a command sequence, in
order. -/
def assigned_ids (tasks : List Task) (cmds : List Cmd) : List Int :=
  (addTraces tasks cmds).map Prod.snd

/-- Whether a command sequence contains a `delete`. -/
def hasDelete : List Cmd → Bool
  | [] => false
  | Cmd.delete _ :: _ => true
  | _ :: cs => hasDelete cs

-- Persistence: `save_tasks` is `json.dump(tasks, file, indent=4)` and
-- `load_tasks` is `json.load(file)`. The serializer below reproduces the
-- exact bytes CPython writes (indent 4, default `ensure_ascii=True`
-- escaping); the parser models `json.load` restricted to the JSON
-- productions a task file contains (objects of int and string members),
-- with `json.load`-style interstitial whitespace handling and the
-- end-of-input check.

/-- Hex digit character (lowercase), as in CPython `\uXXXX` escapes. -/
def hexDig (d : Nat) : Char :=
  if d < 10 then Char.ofNat (48 + d) else Char.ofNat (87 + d)

/-- The four hex digits of `n % 65536`, most significant first. -/
def hex4L (n : Nat) : List Char :=
  [hexDig (n / 4096 % 16), hexDig (n / 256 % 16), hexDig (n / 16 % 16), hexDig (n % 16)]

/-- CPython `json` `ensure_ascii` escaping of one character: `"` and `\`
are backslash-escaped, the control characters with short forms use them,
all other characters outside printable ASCII become `\uXXXX` (a surrogate
pair for characters beyond the BMP). -/
def escChar (c : Char) : List Char :=
  if c = '"' then ['\\', '"']
  else if c = '\\' then ['\\', '\\']
  else if c = '\x08' then ['\\', 'b']
  else if c = '\x09' then ['\\', 't']
  else if c = '\x0a' then ['\\', 'n']
  else if c = '\x0c' then ['\\', 'f']
  else if c = '\x0d' then ['\\', 'r']
  else if 32 ≤ c.toNat ∧ c.toNat ≤ 126 then [c]
  else if c.toNat < 65536 then '\\' :: 'u' :: hex4L c.toNat
  else '\\' :: 'u' :: hex4L (55296 + (c.toNat - 65536) / 1024)
    ++ '\\' :: 'u' :: hex4L (56320 + (c.toNat - 65536) % 1024)

/-- `ensure_ascii` escaping of a whole string body. -/
def escStr : List Char → List Char
  | [] => []
  | c :: cs => escChar c ++ escStr cs

/-- The characters `json.dump` writes for a string value. -/
def dumpStrL (s : String) : List Char :=
  '"' :: escStr s.data ++ ['"']

/-- Eight spaces: the member indentation `json.dump(…, indent=4)` uses
inside a list item. -/
def ind8 : List Char := [' ', ' ', ' ', ' ', ' ', ' ', ' ', ' ']

/-- The separator written between two members: `",\n"` plus the member
indentation. -/
def memSep : List Char := ',' :: '\n' :: ind8

/-- One `"key": value` member as written by `json.dump`. -/
def memberL (k : String) (vL rest : List Char) : List Char :=
  dumpStrL k ++ ':' :: ' ' :: (vL ++ rest)

/-- The characters `json.dump(…, indent=4)` writes for one task object,
at list-item indentation: keys in dict insertion order (the order
`add_task` creates them). -/
def dumpTaskL (t : Task) (rest : List Char) : List Char :=
  ' ' :: ' ' :: ' ' :: ' ' :: '\x7b' :: '\n' ::
    (ind8 ++ memberL "id" (intReprL t.id)
      (memSep ++ memberL "description" (dumpStrL t.description)
        (memSep ++ memberL "status" (dumpStrL t.status)
          (memSep ++ memberL "created_at" (dumpStrL t.created_at)
            (memSep ++ memberL "updated_at" (dumpStrL t.updated_at)
              ('\n' :: ' ' :: ' ' :: ' ' :: ' ' :: '\x7d' :: rest))))))

/-- The list items of a task dump, separated by `",\n"`, with `rest`
appended after the last item. -/
def dumpItemsL (ts : List Task) (rest : List Char) : List Char :=
  match ts with
  | [] => rest
  | [t] => dumpTaskL t rest
  | t :: ts => dumpTaskL t (',' :: '\n' :: dumpItemsL ts rest)

/-- `save_tasks` from `task-cli.py`: the full text
`json.dump(tasks, file, indent=4)` writes to `tasks.json`. -/
def save_tasks (tasks : List Task) : String :=
  match tasks with
  | [] => "[]"
  | _ => String.mk ('[' :: '\n' :: dumpItemsL tasks ['\n', ']'])

/-- JSON interstitial whitespace (the characters `json.load` skips
between tokens). -/
def isWs (c : Char) : Bool :=
  c = ' ' || c = '\t' || c = '\n' || c = '\r'

/-- ASCII decimal digit test. -/
def isDig (c : Char) : Bool :=
  48 ≤ c.toNat && c.toNat ≤ 57

/-- Skip interstitial whitespace. -/
def skipWs (l : List Char) : List Char :=
  l.dropWhile isWs

/-- Numeric value of a hex digit character, upper or lower case. -/
def hexVal (c : Char) : Option Nat :=
  if 48 ≤ c.toNat ∧ c.toNat ≤ 57 then some (c.toNat - 48)
  else if 97 ≤ c.toNat ∧ c.toNat ≤ 102 then some (c.toNat - 87)
  else if 65 ≤ c.toNat ∧ c.toNat ≤ 70 then some (c.toNat - 55)
  else none

/-- Parse the characters after a backslash inside a JSON string, as
`json.load` does: the named single-character escapes, or `\uXXXX` with
surrogate-pair recombination. A lone surrogate is unrepresentable in a
Lean `Char` (Python would keep it) and is rejected; `save_tasks` never
emits one. -/
def parseEscU (l : List Char) : Option (Char × List Char) :=
  match l with
  | a :: b :: c :: d :: r =>
    match hexVal a, hexVal b, hexVal c, hexVal d with
    | some x, some y, some z, some w =>
      let v := ((x * 16 + y) * 16 + z) * 16 + w
      if 55296 ≤ v ∧ v < 56320 then
        match r with
        | e1 :: e2 :: a2 :: b2 :: c2 :: d2 :: r2 =>
          if e1 = '\\' ∧ e2 = 'u' then
            match hexVal a2, hexVal b2, hexVal c2, hexVal d2 with
            | some x2, some y2, some z2, some w2 =>
              let v2 := ((x2 * 16 + y2) * 16 + z2) * 16 + w2
              if 56320 ≤ v2 ∧ v2 < 57344 then
                some (Char.ofNat (65536 + (v - 55296) * 1024 + (v2 - 56320)), r2)
              else none
            | _, _, _, _ => none
          else none
        | _ => none
      else if 56320 ≤ v ∧ v < 57344 then none
      else some (Char.ofNat v, r)
    | _, _, _, _ => none
  | _ => none

/-- Dispatch on the escape letter (split from `parseEscU` so that no
pattern match is on a character literal). -/
def parseEsc (l : List Char) : Option (Char × List Char) :=
  match l with
  | [] => none
  | c :: r =>
    if c = '"' then some ('"', r)
    else if c = '\\' then some ('\\', r)
    else if c = '/' then some ('/', r)
    else if c = 'b' then some ('\x08', r)
    else if c = 'f' then some ('\x0c', r)
    else if c = 'n' then some ('\x0a', r)
    else if c = 'r' then some ('\x0d', r)
    else if c = 't' then some ('\x09', r)
    else if c = 'u' then parseEscU r
    else none

/-- Parse a JSON string body up to its closing quote (strict mode: raw
control characters are rejected, as `json.load` does by default). `fuel`
only bounds the recursion; every step consumes input, so an initial fuel
of the input length plus one never runs out. -/
def parseSB (fuel : Nat) (l : List Char) : Option (List Char × List Char) :=
  match fuel with
  | 0 => none
  | fuel + 1 =>
    match l with
    | [] => none
    | c :: r =>
      if c = '"' then some ([], r)
      else if c = '\\' then
        match parseEsc r with
        | some (ch, r1) =>
          match parseSB fuel r1 with
          | some (s, r2) => some (ch :: s, r2)
          | none => none
        | none => none
      else if c.toNat < 32 then none
      else
        match parseSB fuel r with
        | some (s, r2) => some (c :: s, r2)
        | none => none

/-- Parse a complete JSON string, opening quote included. -/
def parseJString (l : List Char) : Option (List Char × List Char) :=
  if l.head? = some '"' then parseSB (l.tail.length + 1) l.tail else none

/-- Parse an unsigned JSON integer (one or more decimal digits). -/
def parseNatL (l : List Char) : Option (Nat × List Char) :=
  if (l.takeWhile isDig).isEmpty then none
  else some ((l.takeWhile isDig).foldl (fun a c => a * 10 + (c.toNat - 48)) 0,
    l.dropWhile isDig)

/-- Parse a JSON integer with optional leading minus. -/
def parseIntL (l : List Char) : Option (Int × List Char) :=
  if l.head? = some '-' then
    (parseNatL l.tail).bind (fun np => some (-(np.1 : Int), np.2))
  else
    (parseNatL l).bind (fun np => some ((np.1 : Int), np.2))

/-- A member value of a task object: the only value forms `save_tasks`
emits are integers and strings. -/
inductive PVal : Type where
  | pi (n : Int) : PVal
  | ps (s : String) : PVal
deriving DecidableEq

/-- Parse one member value (string or integer), dispatching on the first
character the way the `json` scanner does. -/
def parseVal (l : List Char) : Option (PVal × List Char) :=
  if l.head? = some '"' then
    (parseJString l).bind (fun sp => some (PVal.ps (String.mk sp.1), sp.2))
  else
    (parseIntL l).bind (fun np => some (PVal.pi np.1, np.2))

/-- Parse one `"key": value` member, leading whitespace allowed. -/
def parseMember (l : List Char) : Option ((String × PVal) × List Char) :=
  (parseJString (skipWs l)).bind (fun kp =>
    if (skipWs kp.2).head? = some ':' then
      (parseVal (skipWs (skipWs kp.2).tail)).bind (fun vp =>
        some ((String.mk kp.1, vp.1), vp.2))
    else none)

/-- Parse the members of an object after its `\x7b`, up to and including
the closing `\x7d`. Every loop iteration consumes input, so fuel of the
input length plus one suffices. -/
def parseMembers (fuel : Nat) (l : List Char) :
    Option (List (String × PVal) × List Char) :=
  match fuel with
  | 0 => none
  | fuel + 1 =>
    if (skipWs l).head? = some '\x7d' then some ([], (skipWs l).tail)
    else
      (parseMember (skipWs l)).bind (fun mp =>
        if (skipWs mp.2).head? = some ',' then
          (parseMembers fuel (skipWs mp.2).tail).bind (fun msp =>
            some (mp.1 :: msp.1, msp.2))
        else if (skipWs mp.2).head? = some '\x7d' then some ([mp.1], (skipWs mp.2).tail)
        else none)

/-- Parse one JSON object into its member list, leading whitespace
allowed. -/
def parseObj (l : List Char) : Option (List (String × PVal) × List Char) :=
  if (skipWs l).head? = some '\x7b' then
    parseMembers ((skipWs l).tail.length + 1) (skipWs l).tail
  else none

/-- Interpret a parsed member list as a task record: exactly the five
fields `add_task` writes, in their insertion order, with their types. -/
def decodeTask (ms : List (String × PVal)) : Option Task :=
  match ms with
  | [(k1, PVal.pi n), (k2, PVal.ps d), (k3, PVal.ps st),
      (k4, PVal.ps ca), (k5, PVal.ps ua)] =>
    if k1 = "id" ∧ k2 = "description" ∧ k3 = "status" ∧
        k4 = "created_at" ∧ k5 = "updated_at" then
      some { id := n, description := d, status := st, created_at := ca, updated_at := ua }
    else none
  | _ => none

/-- Parse the comma-separated task objects of a nonempty store array, up
to and including the closing `]`. -/
def parseItems (fuel : Nat) (l : List Char) : Option (List Task × List Char) :=
  match fuel with
  | 0 => none
  | fuel + 1 =>
    (parseObj l).bind (fun op =>
      (decodeTask op.1).bind (fun t =>
        if (skipWs op.2).head? = some ',' then
          (parseItems fuel (skipWs op.2).tail).bind (fun tsp =>
            some (t :: tsp.1, tsp.2))
        else if (skipWs op.2).head? = some ']' then some ([t], (skipWs op.2).tail)
        else none))

/-- The member list a task object parses to: the five fields in
insertion order. -/
def taskMembers (t : Task) : List (String × PVal) :=
  [("id", PVal.pi t.id), ("description", PVal.ps t.description),
    ("status", PVal.ps t.status), ("created_at", PVal.ps t.created_at),
    ("updated_at", PVal.ps t.updated_at)]

/-- `load_tasks` from `task-cli.py` on a file with the given text:
`json.load` restricted to the shape `save_tasks` writes (an array of
task objects), with the end-of-input check `json.load` performs. `none`
models a raised exception or a document of a different shape. -/
def load_tasks (text : String) : Option (List Task) :=
  if (skipWs text.data).head? = some '[' then
    if (skipWs (skipWs text.data).tail).head? = some ']' then
      if (skipWs (skipWs (skipWs text.data).tail).tail).isEmpty then some [] else none
    else
      (parseItems ((skipWs text.data).tail.length + 1) (skipWs text.data).tail).bind
        (fun tsp => if (skipWs tsp.2).isEmpty then some tsp.1 else none)
  else none

end TaskCli

-- ==========================
-- github-activity.py: the event fetcher
-- ==========================

namespace GhActivity

/-- Python `t == "s"` where `t` is an arbitrary JSON value and `"s"` a
string literal: true exactly when `t` is that string (no exception). -/
def isTag (t : Json) (s : String) : Bool :=
  match t with
  | Json.str x => x == s
  | _ => false

/-- `_truncate` from `github-activity.py`, applied to the JSON value that
`payload.get(...)` produced: falsy values give the empty string, and a
string longer than `max_length` is cut at `max_length - 3` (a Python
slice, so a negative stop counts from the end) and suffixed with an
ellipsis. Total: the Python function raises nothing. -/
def truncJ (text : Json) (max_length : Int) : String :=
  if pyTruthy text then
    let s := pyStr text
    if (s.data.length : Int) > max_length then
      pySliceStr s (max_length - 3) ++ "..."
    else s
  else ""

/-- `format_event` from `github-activity.py`: one line per event,
dispatched on the type tag. An `Except.error` is a raised Python
exception (`AttributeError`/`TypeError` on a payload field of an
unexpected shape), an `Except.ok` is the returned line. -/
def format_event (event : Json) (max_length : Int) : Except String String := do
  let t ← pyGet event "type" (Json.str "UnknownEvent")
  let r0 ← pyGet event "repo" (Json.obj [])
  let repoJ ← pyGet r0 "name" (Json.str "UnknownRepo")
  let repo := pyStr repoJ
  let payload ← pyGet event "payload" (Json.obj [])
  if isTag t "PushEvent" then
    let commits ← pyGet payload "commits" (Json.arr [])
    let cnt ← pyLen commits
    pure ("Pushed " ++ intRepr cnt ++ " commit" ++ (if cnt ≠ 1 then "s" else "")
      ++ " to " ++ repo)
  else if isTag t "IssuesEvent" then
    let a0 ← pyGet payload "action" Json.null
    let actS ← pyCapJ (if pyTruthy a0 then a0 else Json.str "performed")
    let i0 ← pyGet payload "issue" (Json.obj [])
    let title ← pyGet i0 "title" Json.null
    pure (actS ++ " issue \x27" ++ truncJ title max_length ++ "\x27 in " ++ repo)
  else if isTag t "WatchEvent" then
    let a0 ← pyGet payload "action" (Json.str "started")
    let actS ← pyCapJ a0
    pure (actS ++ " watching " ++ repo)
  else if isTag t "IssueCommentEvent" then
    let a0 ← pyGet payload "action" Json.null
    let actS ← pyCapJ (if pyTruthy a0 then a0 else Json.str "commented")
    let i0 ← pyGet payload "issue" (Json.obj [])
    let title ← pyGet i0 "title" Json.null
    pure (actS ++ " comment on issue \x27" ++ truncJ title max_length
      ++ "\x27 in " ++ repo)
  else if isTag t "PullRequestEvent" then
    let a0 ← pyGet payload "action" Json.null
    let actS ← pyCapJ (if pyTruthy a0 then a0 else Json.str "performed")
    let p0 ← pyGet payload "pull_request" (Json.obj [])
    let title ← pyGet p0 "title" Json.null
    pure (actS ++ " pull request \x27" ++ truncJ title max_length
      ++ "\x27 in " ++ repo)
  else if isTag t "PullRequestReviewCommentEvent" then
    pure ("Commented on a pull request in " ++ repo)
  else if isTag t "CreateEvent" then
    let rt0 ← pyGet payload "ref_type" Json.null
    let rf0 ← pyGet payload "ref" Json.null
    let ref_type := if pyTruthy rt0 then rt0 else Json.str "ref"
    let ref := if pyTruthy rf0 then rf0 else Json.str ""
    pure ("Created " ++ pyStr ref_type ++ " \x27" ++ pyStr ref ++ "\x27 in " ++ repo)
  else if isTag t "DeleteEvent" then
    let rt0 ← pyGet payload "ref_type" Json.null
    let rf0 ← pyGet payload "ref" Json.null
    let ref_type := if pyTruthy rt0 then rt0 else Json.str "ref"
    let ref := if pyTruthy rf0 then rf0 else Json.str ""
    pure ("Deleted " ++ pyStr ref_type ++ " \x27" ++ pyStr ref ++ "\x27 in " ++ repo)
  else if isTag t "ForkEvent" then
    let f0 ← pyGet payload "forkee" (Json.obj [])
    let fn0 ← pyGet f0 "full_name" Json.null
    let forkee := if pyTruthy fn0 then fn0 else Json.str "<fork>"
    pure ("Forked " ++ repo ++ " to " ++ pyStr forkee)
  else if isTag t "ReleaseEvent" then
    let a0 ← pyGet payload "action" Json.null
    let actS ← pyCapJ (if pyTruthy a0 then a0 else Json.str "released")
    let r1 ← pyGet payload "release" (Json.obj [])
    let tg0 ← pyGet r1 "tag_name" Json.null
    let release := if pyTruthy tg0 then tg0 else Json.str ""
    pure (actS ++ " release \x27" ++ pyStr release ++ "\x27 in " ++ repo)
  else if isTag t "StarEvent" || isTag t "WatchEvent" then
    let a0 ← pyGet payload "action" Json.null
    let actS ← pyCapJ (if pyTruthy a0 then a0 else Json.str "starred")
    pure (actS ++ " " ++ repo)
  else
    pure (pyStr t ++ " on " ++ repo)

/-- The display loop of `print_events` (`github-activity.py` lines
144-155), one `format_event` call per element: `format_event` may raise
on a malformed element; the timestamp rendering that follows it is
wrapped in `except Exception` in the source and cannot raise, and the
`print` calls themselves are effect-only. -/
def printEventsLoop : List Json → Except String Unit
  | [] => Except.ok ()
  | ev :: rest => (format_event ev 80).bind (fun _ => printEventsLoop rest)

/-- `print_events` from `github-activity.py` as the raise-or-return
boundary `main` exposes: a falsy argument prints `No events found.` and
returns; a truthy list formats each element of `events[:limit]`,
raising whatever `format_event` raises on a malformed element; a truthy
non-list either raises `TypeError` at the `events[:limit]` slice (dict,
int, bool are unsliceable) or, for a string, iterates the characters of
the slice, on whose first character `format_event` raises
`AttributeError` (a one-character string has no `.get`). -/
def print_events (events : Json) (limit : Int) : Except String Unit :=
  if pyTruthy events then
    match events with
    | Json.arr l => printEventsLoop (pySliceList l limit)
    | Json.str s =>
      if (pySliceStr s limit).data.isEmpty then Except.ok ()
      else Except.error "AttributeError: object has no attribute get"
    | _ => Except.error "TypeError: value cannot be sliced"
  else Except.ok ()

/-- Python exception kinds that `fetch_github_events` can raise; `main`
dispatches its exit code on exactly this distinction. -/
inductive PyErr : Type where
  | valueError (msg : String) : PyErr
  | runtimeError (msg : String) : PyErr
deriving DecidableEq, Repr

/-- Outcome of the one `urlopen` call in `fetch_github_events`, the
simulated transport boundary:
- `response status body`: the request returned a response object
  (urllib delivers 2xx statuses this way); `body` is `some v` when the
  body text is valid JSON parsing to `v` and `none` when it is not
  (`json.load` would raise `JSONDecodeError` on it);
- `httpError code reason`: `urlopen` raised `HTTPError` (urllib does this
  for 4xx/5xx statuses);
- `urlError reason`: `urlopen` raised `URLError` (network-level failure).
-/
inductive HttpOutcome : Type where
  | response (status : Nat) (body : Option Json) : HttpOutcome
  | httpError (code : Nat) (reason : String) : HttpOutcome
  | urlError (reason : String) : HttpOutcome

/-- `fetch_github_events` from `github-activity.py`, over the simulated
transport: on a 200 response it returns the first `limit` entries of a
list body (a non-list body is returned as-is); a non-200 response object
raises `ValueError` (line 57, inside the `try`, caught by none of its
handlers); `HTTPError` 404 is re-raised as the not-found `ValueError`,
403 as the rate-limit `RuntimeError`, anything else as a generic
`RuntimeError` carrying code and reason; `URLError` becomes the
connectivity `RuntimeError`; an unparseable 200 body becomes the
parse-failure `RuntimeError`. The unused `token` argument only shapes
request headers in the source. -/
def fetch_github_events (username : String) (limit : Int)
    (_token : Option String) (r : HttpOutcome) : Except PyErr Json :=
  match r with
  | HttpOutcome.response status body =>
    if status = 200 then
      match body with
      | some data =>
        match data with
        | Json.arr l => Except.ok (Json.arr (pySliceList l limit))
        | _ => Except.ok data
      | none => Except.error (PyErr.runtimeError "Failed to parse JSON response.")
    else
      Except.error (PyErr.valueError ("Error fetching events: " ++ intRepr status))
  | HttpOutcome.httpError code reason =>
    if code = 404 then
      Except.error (PyErr.valueError ("User " ++ username ++ " not found."))
    else if code = 403 then
      Except.error (PyErr.runtimeError
        "API rate limit exceeded or access forbidden (403). Try authenticating with a token.")
    else
      Except.error (PyErr.runtimeError
        ("HTTP error occurred: " ++ intRepr code ++ " " ++ reason))
  | HttpOutcome.urlError reason =>
    Except.error (PyErr.runtimeError ("Failed to reach the server: " ++ reason))

/-- Exit code of `main` in `github-activity.py` for a `fetch` invocation:
`ValueError` from the fetch exits 2 and `RuntimeError` exits 3, per its
handlers; on a successful fetch `main` then calls `print_events`, whose
exceptions (`AttributeError`/`TypeError` on a non-list or malformed 200
body) are caught nowhere, so the interpreter dies with exit code 1;
when printing returns normally, the remaining path (including the
best-effort `save_events`, whose failure is only a warning) exits 0. -/
def fetchExitCode (username : String) (limit : Int) (token : Option String)
    (r : HttpOutcome) : Nat :=
  match fetch_github_events username limit token r with
  | Except.ok events =>
    match print_events events limit with
    | Except.ok _ => 0
    | Except.error _ => 1
  | Except.error (PyErr.valueError _) => 2
  | Except.error (PyErr.runtimeError _) => 3

/-- An event record with the given type tag and repository name and the
given payload, the shape the GitHub API returns. -/
def mkEv (t rname : String) (payload : Json) : Json :=
  Json.obj [("type", Json.str t), ("repo", Json.obj [("name", Json.str rname)]),
    ("payload", payload)]

/-- The line documented for an event all of whose optional repo/payload
fields are absent: branch by branch, the default placeholder each
`payload.get`/`or`-idiom supplies. Stated from the documented defaults,
to be compared with what `format_event` computes. -/
def defaultLine (t : Json) (repo : String) : String :=
  match t with
  | Json.str s =>
    if s = "PushEvent" then "Pushed 0 commits to " ++ repo
    else if s = "IssuesEvent" then "Performed issue \x27\x27 in " ++ repo
    else if s = "WatchEvent" then "Started watching " ++ repo
    else if s = "IssueCommentEvent" then
      "Commented comment on issue \x27\x27 in " ++ repo
    else if s = "PullRequestEvent" then "Performed pull request \x27\x27 in " ++ repo
    else if s = "PullRequestReviewCommentEvent" then
      "Commented on a pull request in " ++ repo
    else if s = "CreateEvent" then "Created ref \x27\x27 in " ++ repo
    else if s = "DeleteEvent" then "Deleted ref \x27\x27 in " ++ repo
    else if s = "ForkEvent" then "Forked " ++ repo ++ " to " ++ "<fork>"
    else if s = "ReleaseEvent" then "Released release \x27\x27 in " ++ repo
    else if s = "StarEvent" then "Starred " ++ repo
    else s ++ " on " ++ repo
  | v => pyStr v ++ " on " ++ repo

end GhActivity

-- ==========================
-- Theorems
-- ==========================

namespace TaskCli

theorem le_foldl_max (l : List Task) (a : Int) :
    a ≤ l.foldl (fun m u => max m u.id) a := by
  induction l generalizing a with
  | nil => exact le_refl a
  | cons t ts ih => exact le_trans (le_max_left a t.id) (ih (max a t.id))

theorem mem_le_foldl_max (l : List Task) (a : Int) (t : Task) (h : t ∈ l) :
    t.id ≤ l.foldl (fun m u => max m u.id) a := by
  induction l generalizing a with
  | nil => cases h
  | cons u us ih =>
    rcases List.mem_cons.mp h with h1 | h1
    · subst h1
      exact le_trans (le_max_right a t.id) (le_foldl_max us (max a t.id))
    · exact ih (max a u.id) h1

theorem foldl_max_eq_or_mem (l : List Task) (a : Int) :
    l.foldl (fun m u => max m u.id) a = a ∨
      ∃ t ∈ l, l.foldl (fun m u => max m u.id) a = t.id := by
  induction l generalizing a with
  | nil => exact Or.inl rfl
  | cons u us ih =>
    rcases ih (max a u.id) with h | ⟨t, ht, he⟩
    · rcases max_choice a u.id with hm | hm
      · exact Or.inl (by simpa [hm] using h)
      · exact Or.inr ⟨u, List.mem_cons_self u us, by simpa [hm] using h⟩
    · exact Or.inr ⟨t, List.mem_cons_of_mem u ht, he⟩

theorem id_lt_generate_id (tasks : List Task) (t : Task) (h : t ∈ tasks) :
    t.id < generate_id tasks := by
  match tasks with
  | [] => cases h
  | u :: us =>
    show t.id < (us.foldl (fun m x => max m x.id) u.id) + 1
    rcases List.mem_cons.mp h with h1 | h1
    · subst h1
      exact Int.lt_add_one_iff.mpr (le_foldl_max us t.id)
    · exact Int.lt_add_one_iff.mpr (mem_le_foldl_max us u.id t h1)

theorem generate_id_eq_succ_mem (tasks : List Task) (h : tasks ≠ []) :
    ∃ t ∈ tasks, generate_id tasks = t.id + 1 := by
  match tasks with
  | [] => exact absurd rfl h
  | u :: us =>
    have hg : generate_id (u :: us) = (us.foldl (fun m x => max m x.id) u.id) + 1 := rfl
    rcases foldl_max_eq_or_mem us u.id with h1 | ⟨t, ht, he⟩
    · refine ⟨u, List.mem_cons_self u us, ?_⟩
      rw [hg, h1]
    · refine ⟨t, List.mem_cons_of_mem u ht, ?_⟩
      rw [hg, he]

theorem applyFields_id (t : Task) (d st : Option String) :
    (applyFields t d st).id = t.id := by
  unfold applyFields
  split <;> split <;> rfl

theorem update_task_map_id (tasks : List Task) (task_id : Int)
    (d st : Option String) (now : String) :
    (update_task tasks task_id d st now).1.map Task.id = tasks.map Task.id := by
  induction tasks with
  | nil => rfl
  | cons t rest ih =>
    simp only [update_task]
    by_cases h : t.id = task_id
    · rw [if_pos h]
      by_cases hc : optTruthy d || optTruthy st
      · rw [if_pos hc]
        simp [applyFields_id]
      · rw [if_neg hc]
    · rw [if_neg h]
      simpa using ih

theorem execCmd_ids_mono (s : List Task) (c : Cmd)
    (hc : ∀ i : Int, c ≠ Cmd.delete i) (i : Int) (h : i ∈ s.map Task.id) :
    i ∈ (execCmd s c).map Task.id := by
  match c with
  | Cmd.add d ts =>
    simpa [execCmd, add_task] using Or.inl h
  | Cmd.update j d st now =>
    by_cases hs : (update_task s j d st now).2.2 <;>
      simp [execCmd, hs, update_task_map_id, h]
  | Cmd.delete j => exact absurd rfl (hc j)

theorem hasDelete_cons_false {c : Cmd} {cs : List Cmd}
    (h : hasDelete (c :: cs) = false) :
    (∀ i : Int, c ≠ Cmd.delete i) ∧ hasDelete cs = false := by
  match c with
  | Cmd.add d ts => exact ⟨(fun i hne => by cases hne), h⟩
  | Cmd.update j d st now => exact ⟨(fun i hne => by cases hne), h⟩
  | Cmd.delete j => cases h

theorem ids_lt_assigned (cmds : List Cmd) :
    ∀ s : List Task, hasDelete cmds = false → ∀ i ∈ s.map Task.id,
      ∀ b ∈ assigned_ids s cmds, i < b := by
  induction cmds with
  | nil =>
    intro s _ i _ b hb
    cases hb
  | cons c cs ih =>
    intro s h i hi b hb
    rcases hasDelete_cons_false h with ⟨hc, hcs⟩
    match c with
    | Cmd.add d ts =>
      rcases List.mem_cons.mp hb with h1 | h1
      · subst h1
        rcases List.mem_map.mp hi with ⟨t, ht, he⟩
        exact he ▸ id_lt_generate_id s t ht
      · exact ih (execCmd s (Cmd.add d ts)) hcs i
          (execCmd_ids_mono s (Cmd.add d ts) hc i hi) b h1
    | Cmd.update j d st now =>
      exact ih (execCmd s (Cmd.update j d st now)) hcs i
        (execCmd_ids_mono s (Cmd.update j d st now) hc i hi) b hb
    | Cmd.delete j => exact absurd rfl (hc j)

theorem assigned_ids_pairwise (cmds : List Cmd) :
    ∀ s : List Task, hasDelete cmds = false →
      (assigned_ids s cmds).Pairwise (· < ·) := by
  induction cmds with
  | nil =>
    intro s _
    exact List.Pairwise.nil
  | cons c cs ih =>
    intro s h
    rcases hasDelete_cons_false h with ⟨hc, hcs⟩
    match c with
    | Cmd.add d ts =>
      refine List.Pairwise.cons (fun b hb => ?_) (ih (execCmd s (Cmd.add d ts)) hcs)
      refine ids_lt_assigned cs (execCmd s (Cmd.add d ts)) hcs
        (generate_id s) ?_ b hb
      simp [execCmd, add_task]
    | Cmd.update j d st now => exact ih (execCmd s (Cmd.update j d st now)) hcs
    | Cmd.delete j => exact absurd rfl (hc j)

theorem addTraces_fresh (cmds : List Cmd) :
    ∀ s : List Task, ∀ p ∈ addTraces s cmds,
      p.2 = generate_id p.1 ∧ ∀ t ∈ p.1, t.id < p.2 := by
  induction cmds with
  | nil =>
    intro s p hp
    cases hp
  | cons c cs ih =>
    intro s p hp
    match c with
    | Cmd.add d ts =>
      rcases List.mem_cons.mp hp with h1 | h1
      · subst h1
        exact ⟨rfl, fun t ht => id_lt_generate_id s t ht⟩
      · exact ih _ p h1
    | Cmd.update j d st now => exact ih _ p hp
    | Cmd.delete j => exact ih _ p hp

theorem string_ne_empty_data {s : String} (h : s ≠ "") : s.data ≠ [] := by
  intro hd
  apply h
  cases s
  simp only at hd
  rw [hd]

end TaskCli

/-- C1 (amended). Starting from an empty store, every id assigned by
`add` equals `1 + max(ids present at that moment)` — stated
non-definitionally: it is strictly greater than every id present, it is
`1` on an empty store, and on a nonempty store it is exactly one more
than the id of some present task (hence `1 + max`). Moreover, in any
sequence free of `delete` operations the assigned ids are strictly
increasing. (The original claim also asserted strict increase and
non-reuse across sequences that contain deletes; see the
counterexample.) -/
theorem c1_id_assignment (cmds : List TaskCli.Cmd) :
    (∀ p ∈ TaskCli.addTraces [] cmds,
      (∀ t ∈ p.1, t.id < p.2) ∧
      (p.1 = [] → p.2 = 1) ∧
      (p.1 ≠ [] → ∃ t ∈ p.1, p.2 = t.id + 1)) ∧
    (TaskCli.hasDelete cmds = false →
      (TaskCli.assigned_ids [] cmds).Pairwise (· < ·)) := by
  constructor
  · intro p hp
    rcases TaskCli.addTraces_fresh cmds [] p hp with ⟨hgen, hlt⟩
    refine ⟨hlt, ?_, ?_⟩
    · intro he
      rw [hgen, he]
      rfl
    · intro hne
      rw [hgen]
      exact TaskCli.generate_id_eq_succ_mem p.1 hne
  · intro h
    exact TaskCli.assigned_ids_pairwise cmds [] h

/-- Witness for C1 at a concrete delete-free sequence. -/
theorem c1_id_assignment_witness :
    (TaskCli.assigned_ids []
      [TaskCli.Cmd.add "a" "t1", TaskCli.Cmd.add "b" "t2"]).Pairwise (· < ·) :=
  (c1_id_assignment [TaskCli.Cmd.add "a" "t1", TaskCli.Cmd.add "b" "t2"]).2 rfl

/-- C1 counterexample: after `add, add, delete 2, add` the assigned ids
are `[1, 2, 2]` — the third `add` reuses id 2, which had been assigned
before and deleted, so the assigned ids are not strictly increasing and
an id is reused after the task holding it is deleted. -/
theorem c1_id_reuse_counterexample :
    TaskCli.assigned_ids []
      [TaskCli.Cmd.add "a" "t1", TaskCli.Cmd.add "b" "t2",
        TaskCli.Cmd.delete 2, TaskCli.Cmd.add "c" "t3"] = [1, 2, 2] ∧
    ¬ (TaskCli.assigned_ids []
      [TaskCli.Cmd.add "a" "t1", TaskCli.Cmd.add "b" "t2",
        TaskCli.Cmd.delete 2, TaskCli.Cmd.add "c" "t3"]).Pairwise (· < ·) := by
  constructor
  · rfl
  · intro h
    have := (List.pairwise_cons.mp (List.pairwise_cons.mp h).2).1 2
      (List.mem_cons_self 2 [])
    exact absurd this (by decide)

/-- C5. `update` with neither a description nor a status on an existing
id reports the no-changes outcome, leaves every task (including
`updated_at`) unchanged, and does not call `save_tasks`. -/
theorem c5_update_no_fields_noop (tasks : List TaskCli.Task) (task_id : Int)
    (now : String) (h : task_id ∈ tasks.map TaskCli.Task.id) :
    TaskCli.update_task tasks task_id none none now =
      (tasks, TaskCli.UpdOutcome.noChanges, false) := by
  induction tasks with
  | nil => cases h
  | cons t rest ih =>
    simp only [TaskCli.update_task]
    by_cases he : t.id = task_id
    · rw [if_pos he]
      rfl
    · rw [if_neg he]
      have hmem : task_id ∈ rest.map TaskCli.Task.id := by
        rcases List.mem_map.mp h with ⟨u, hu, hid⟩
        rcases List.mem_cons.mp hu with h1 | h1
        · exact absurd (h1 ▸ hid) he
        · exact hid ▸ List.mem_map_of_mem TaskCli.Task.id h1
      rw [ih hmem]

/-- Witness for C5 at a concrete store. -/
theorem c5_update_no_fields_noop_witness :
    TaskCli.update_task [⟨1, "a", "todo", "t", "t"⟩] 1 none none "n" =
      ([⟨1, "a", "todo", "t", "t"⟩], TaskCli.UpdOutcome.noChanges, false) :=
  c5_update_no_fields_noop [⟨1, "a", "todo", "t", "t"⟩] 1 "n" (by simp)

/-- C6. `delete` on an id not present in the store reports not-found and
does not call `save_tasks`, so the store file stays byte-for-byte
unchanged (the in-memory filter also removes nothing). -/
theorem c6_delete_not_found_noop (tasks : List TaskCli.Task) (task_id : Int)
    (h : task_id ∉ tasks.map TaskCli.Task.id) :
    TaskCli.delete_task tasks task_id =
      (tasks, TaskCli.DelOutcome.notFound, false) := by
  have hf : tasks.filter (fun t => t.id != task_id) = tasks := by
    refine List.filter_eq_self.mpr (fun t ht => ?_)
    have : t.id ≠ task_id := fun he => h (he ▸ List.mem_map_of_mem TaskCli.Task.id ht)
    simpa using this
  simp [TaskCli.delete_task, hf]

/-- Witness for C6 at a concrete store. -/
theorem c6_delete_not_found_noop_witness :
    TaskCli.delete_task [⟨1, "a", "todo", "t", "t"⟩] 7 =
      ([⟨1, "a", "todo", "t", "t"⟩], TaskCli.DelOutcome.notFound, false) :=
  c6_delete_not_found_noop [⟨1, "a", "todo", "t", "t"⟩] 7 (by simp)

/-- C7. For a status drawn from the status enum (in particular nonempty,
so Python truthiness does not reroute to the list-all branch),
`list_tasks` renders exactly the tasks whose status equals the given
one, as a subsequence of the store in its original order, and reports
`No tasks found.` when that selection is empty. -/
theorem c7_list_filters_by_status (tasks : List TaskCli.Task) (status : String)
    (h : status ≠ "") :
    (tasks.filter (fun t => t.status == status) = [] →
      TaskCli.list_tasks tasks (some status) = TaskCli.ListOutput.noTasksFound) ∧
    (tasks.filter (fun t => t.status == status) ≠ [] →
      TaskCli.list_tasks tasks (some status) =
        TaskCli.ListOutput.lines (tasks.filter (fun t => t.status == status))) ∧
    (tasks.filter (fun t => t.status == status)).Sublist tasks ∧
    (∀ t ∈ tasks.filter (fun t => t.status == status), t.status = status) ∧
    (∀ t ∈ tasks, t.status = status → t ∈ tasks.filter (fun t => t.status == status)) := by
  have htr : TaskCli.optTruthy (some status) = true := by
    simpa [TaskCli.optTruthy] using TaskCli.string_ne_empty_data h
  refine ⟨?_, ?_, List.filter_sublist tasks, ?_, ?_⟩
  · intro hsel
    simp [TaskCli.list_tasks, htr, hsel]
  · intro hsel
    simp [TaskCli.list_tasks, htr, List.isEmpty_iff, hsel]
  · intro t ht
    simpa using (List.mem_filter.mp ht).2
  · intro t ht hst
    exact List.mem_filter.mpr ⟨ht, by simpa using hst⟩

/-- Witness for C7 at a concrete store and status. -/
theorem c7_list_filters_by_status_witness :
    TaskCli.list_tasks [⟨1, "a", "todo", "t", "t"⟩, ⟨2, "b", "done", "t", "t"⟩]
        (some "done") =
      TaskCli.ListOutput.lines [⟨2, "b", "done", "t", "t"⟩] :=
  (c7_list_filters_by_status
      [⟨1, "a", "todo", "t", "t"⟩, ⟨2, "b", "done", "t", "t"⟩] "done"
      (by decide)).2.1 (by decide)

/-- C4. `fetch_github_events` on a simulated `HTTPError` 404 raises the
not-found `ValueError`; on a 403 it raises the rate-limit
`RuntimeError`; on a 200 response whose body is not valid JSON it raises
the parse-failure `RuntimeError`. The three kinds are pairwise distinct
exceptions. -/
theorem c4_fetch_error_kinds (username : String) (limit : Int)
    (token : Option String) (reason : String) :
    GhActivity.fetch_github_events username limit token
        (GhActivity.HttpOutcome.httpError 404 reason) =
      Except.error (GhActivity.PyErr.valueError ("User " ++ username ++ " not found.")) ∧
    GhActivity.fetch_github_events username limit token
        (GhActivity.HttpOutcome.httpError 403 reason) =
      Except.error (GhActivity.PyErr.runtimeError
        "API rate limit exceeded or access forbidden (403). Try authenticating with a token.") ∧
    GhActivity.fetch_github_events username limit token
        (GhActivity.HttpOutcome.response 200 none) =
      Except.error (GhActivity.PyErr.runtimeError "Failed to parse JSON response.") := by
  refine ⟨rfl, ?_, rfl⟩
  simp [GhActivity.fetch_github_events]

theorem printEventsLoop_isOk_all (l : List Json) :
    (GhActivity.printEventsLoop l).isOk =
      l.all (fun ev => (GhActivity.format_event ev 80).isOk) := by
  induction l with
  | nil => rfl
  | cons ev rest ih =>
    show ((GhActivity.format_event ev 80).bind
      (fun _ => GhActivity.printEventsLoop rest)).isOk = _
    rw [List.all_cons]
    match h : GhActivity.format_event ev 80 with
    | Except.ok s =>
      show (GhActivity.printEventsLoop rest).isOk = _
      rw [ih]
      rfl
    | Except.error e =>
      rfl

/-- C3 (amended). The exit code of a `fetch` invocation is 2 when the
user was not found (`HTTPError` 404) and also when a non-200 status is
delivered as a response object without an `HTTPError` (the `ValueError`
raised at line 57 of `github-activity.py` is caught by the same handler
as the 404 case); 3 for every `HTTPError` other than 404, every network
error, and a 200 body that fails to parse. A parsed 200 response exits
0 only when the subsequent `print_events` call returns: for a list
body, exactly when `format_event` succeeds on every displayed element
(the body sliced by the fetch and sliced again by the display loop);
for a non-list body, only when it is falsy or a string whose slice is
empty — otherwise the uncaught `AttributeError`/`TypeError` kills the
process with exit code 1. -/
theorem c3_exit_codes (username : String) (limit : Int) (token : Option String)
    (r : GhActivity.HttpOutcome) :
    GhActivity.fetchExitCode username limit token r =
      (match r with
        | GhActivity.HttpOutcome.response s (some data) =>
          if s = 200 then
            (match data with
              | Json.arr l =>
                if (pySliceList (pySliceList l limit) limit).all
                    (fun ev => (GhActivity.format_event ev 80).isOk) then 0 else 1
              | Json.str st => if (pySliceStr st limit).data.isEmpty then 0 else 1
              | Json.obj o => if o.isEmpty then 0 else 1
              | Json.num n => if n = 0 then 0 else 1
              | Json.bool b => if b then 1 else 0
              | Json.null => 0)
          else 2
        | GhActivity.HttpOutcome.response s none => if s = 200 then 3 else 2
        | GhActivity.HttpOutcome.httpError c _ => if c = 404 then 2 else 3
        | GhActivity.HttpOutcome.urlError _ => 3) := by
  match r with
  | GhActivity.HttpOutcome.response s (some data) =>
    by_cases hs : s = 200
    · subst hs
      match data with
      | Json.arr l =>
        show (match GhActivity.print_events (Json.arr (pySliceList l limit)) limit with
            | Except.ok _ => 0
            | Except.error _ => 1) =
          (if (pySliceList (pySliceList l limit) limit).all
              (fun ev => (GhActivity.format_event ev 80).isOk) then 0 else 1)
        unfold GhActivity.print_events
        by_cases hm : (pySliceList l limit).isEmpty
        · have hsl : pySliceList l limit = [] := by
            simpa [List.isEmpty_iff] using hm
          rw [hsl]
          have h0 : pySliceList ([] : List Json) limit = [] := by
            simp [pySliceList]
          rw [h0]
          rfl
        · rw [if_pos (show pyTruthy (Json.arr (pySliceList l limit)) = true from by
            simp [pyTruthy, hm])]
          show (match GhActivity.printEventsLoop (pySliceList (pySliceList l limit) limit) with
              | Except.ok _ => 0
              | Except.error _ => 1) =
            (if (pySliceList (pySliceList l limit) limit).all
                (fun ev => (GhActivity.format_event ev 80).isOk) then 0 else 1)
          have hall := printEventsLoop_isOk_all (pySliceList (pySliceList l limit) limit)
          match hpl : GhActivity.printEventsLoop (pySliceList (pySliceList l limit) limit) with
          | Except.ok u =>
            rw [hpl] at hall
            have htrue : (pySliceList (pySliceList l limit) limit).all
                (fun ev => (GhActivity.format_event ev 80).isOk) = true := by
              rw [← hall]
              rfl
            rw [if_pos htrue]
          | Except.error e =>
            rw [hpl] at hall
            rw [if_neg (show ¬ (pySliceList (pySliceList l limit) limit).all
                (fun ev => (GhActivity.format_event ev 80).isOk) = true from by
              rw [← hall]
              exact Bool.false_ne_true)]
      | Json.str st =>
        show (match GhActivity.print_events (Json.str st) limit with
            | Except.ok _ => 0
            | Except.error _ => 1) =
          (if (pySliceStr st limit).data.isEmpty then 0 else 1)
        unfold GhActivity.print_events
        by_cases ht : st.data = []
        · have h1 : pyTruthy (Json.str st) = false := by simp [pyTruthy, ht]
          rw [h1]
          have h2 : (pySliceStr st limit).data.isEmpty = true := by
            simp [pySliceStr, ht]
          rw [if_pos h2]
          rfl
        · have h1 : pyTruthy (Json.str st) = true := by simp [pyTruthy, ht]
          rw [h1]
          show (match (if (pySliceStr st limit).data.isEmpty = true then Except.ok ()
              else (Except.error "AttributeError: object has no attribute get" : Except String Unit)) with
            | Except.ok _ => 0
            | Except.error _ => 1) =
            (if (pySliceStr st limit).data.isEmpty then 0 else 1)
          by_cases h2 : (pySliceStr st limit).data.isEmpty
          · rw [if_pos h2, if_pos h2]
          · rw [if_neg h2, if_neg h2]
      | Json.obj o =>
        show (match GhActivity.print_events (Json.obj o) limit with
            | Except.ok _ => 0
            | Except.error _ => 1) =
          (if o.isEmpty then 0 else 1)
        unfold GhActivity.print_events
        by_cases ho : o.isEmpty
        · have h1 : pyTruthy (Json.obj o) = false := by simp [pyTruthy, ho]
          rw [h1, if_pos ho]
          rfl
        · have h1 : pyTruthy (Json.obj o) = true := by simp [pyTruthy, ho]
          rw [h1, if_neg ho]
          rfl
      | Json.num n =>
        show (match GhActivity.print_events (Json.num n) limit with
            | Except.ok _ => 0
            | Except.error _ => 1) =
          (if n = 0 then 0 else 1)
        unfold GhActivity.print_events
        by_cases hn : n = 0
        · subst hn
          rfl
        · have h1 : pyTruthy (Json.num n) = true := by simp [pyTruthy, hn]
          rw [h1, if_neg hn]
          rfl
      | Json.bool b =>
        cases b <;> rfl
      | Json.null => rfl
    · simp [GhActivity.fetchExitCode, GhActivity.fetch_github_events, hs]
  | GhActivity.HttpOutcome.response s none =>
    by_cases hs : s = 200 <;>
      simp [GhActivity.fetchExitCode, GhActivity.fetch_github_events, hs]
  | GhActivity.HttpOutcome.httpError c reason =>
    by_cases hc : c = 404
    · simp [GhActivity.fetchExitCode, GhActivity.fetch_github_events, hc]
    · by_cases hc3 : c = 403 <;>
        simp [GhActivity.fetchExitCode, GhActivity.fetch_github_events, hc, hc3]
  | GhActivity.HttpOutcome.urlError reason =>
    simp [GhActivity.fetchExitCode, GhActivity.fetch_github_events]

/-- C3 counterexample: a 204 response (a non-200 status urllib delivers
without raising `HTTPError`) exits with code 2, the code the claim
reserves for user-not-found, not with 3 as claimed for every other
non-200 status. -/
theorem c3_exit_code_counterexample :
    GhActivity.fetchExitCode "alice" 10 none
      (GhActivity.HttpOutcome.response 204 (some (Json.arr []))) = 2 := by
  rfl

/-- C9 (amended). For `3 ≤ maxLineLength`, a text field longer than the
limit is truncated: the result is the text cut at `maxLineLength - 3`
characters and suffixed with `"..."`, and its total length never
exceeds the limit. (In particular a 100-character title at the default
limit 80 renders as exactly 77 characters plus the ellipsis; see the
witness.) For `maxLineLength < 3` the bound fails; see the
counterexample. -/
theorem c9_truncate_bounds (s : String) (m : Int) (h3 : 3 ≤ m)
    (hl : m < (s.data.length : Int)) :
    GhActivity.truncJ (Json.str s) m =
      String.mk (s.data.take (m - 3).toNat) ++ "..." ∧
    ((GhActivity.truncJ (Json.str s) m).data.length : Int) ≤ m := by
  have hne : s.data ≠ [] := by
    intro hd
    rw [hd] at hl
    simp at hl
    omega
  have htr : pyTruthy (Json.str s) = true := by
    simpa [pyTruthy] using hne
  have h1 : GhActivity.truncJ (Json.str s) m = pySliceStr s (m - 3) ++ "..." := by
    simp only [GhActivity.truncJ, htr, if_true, pyStr]
    rw [if_pos hl]
  have h2 : pySliceStr s (m - 3) = String.mk (s.data.take (m - 3).toNat) := by
    simp only [pySliceStr]
    rw [if_neg (by omega : ¬ (m - 3 < (0 : Int)))]
  refine ⟨by rw [h1, h2], ?_⟩
  rw [h1, h2]
  have hd : (String.mk (s.data.take (m - 3).toNat) ++ "...").data =
      s.data.take (m - 3).toNat ++ "...".data := rfl
  rw [hd, List.length_append, List.length_take]
  have h5 : "...".data.length = 3 := rfl
  rw [h5]
  push_cast
  omega

/-- Witness for C9 at a 100-character title and the default limit 80. -/
theorem c9_truncate_bounds_witness :
    GhActivity.truncJ (Json.str (String.mk (List.replicate 100 'a'))) 80 =
      String.mk ((String.mk (List.replicate 100 'a')).data.take
        ((80 : Int) - 3).toNat) ++ "..." ∧
    ((GhActivity.truncJ (Json.str (String.mk (List.replicate 100 'a'))) 80).data.length : Int)
      ≤ 80 :=
  c9_truncate_bounds (String.mk (List.replicate 100 'a')) 80 (by decide) (by simp)

theorem except_bind_ok {α β ε : Type} (a : α) (f : α → Except ε β) :
    (Except.ok a >>= f : Except ε β) = f a := rfl

/-- C2 (amended). `format_event` never raises on an event object whose
nested repo/payload fields are *absent*, however many unrelated keys the
event, its repo or its payload carry and however partially present the
nested containers are (a repo without `name`, an `issue`/`pull_request`/
`forkee`/`release` object without the accessed key): for every type tag
it returns exactly the documented line, substituting the default
placeholder for each missing field. The original claim also covered
*null* nested fields; those can raise - see the counterexample. -/
theorem c2_format_event_missing_fields_safe (l : List (String × Json)) (rname : String)
    (hrn : pyGet ((l.lookup "repo").getD (Json.obj [])) "name" (Json.str "UnknownRepo")
        = Except.ok (Json.str rname))
    (hp : l.lookup "payload" = none ∨
      ∃ po, l.lookup "payload" = some (Json.obj po) ∧
        po.lookup "action" = none ∧ po.lookup "commits" = none ∧
        po.lookup "ref_type" = none ∧ po.lookup "ref" = none ∧
        (po.lookup "issue" = none ∨
          ∃ io, po.lookup "issue" = some (Json.obj io) ∧ io.lookup "title" = none) ∧
        (po.lookup "pull_request" = none ∨
          ∃ pq, po.lookup "pull_request" = some (Json.obj pq) ∧
            pq.lookup "title" = none) ∧
        (po.lookup "forkee" = none ∨
          ∃ fo, po.lookup "forkee" = some (Json.obj fo) ∧
            fo.lookup "full_name" = none) ∧
        (po.lookup "release" = none ∨
          ∃ rl, po.lookup "release" = some (Json.obj rl) ∧
            rl.lookup "tag_name" = none)) :
    GhActivity.format_event (Json.obj l) 80 =
      Except.ok (GhActivity.defaultLine
        ((l.lookup "type").getD (Json.str "UnknownEvent")) rname) := by
  obtain ⟨po, hpo, ha, hc, hq, hw, hi, hpq, hf, hrl⟩ :
      ∃ po, (l.lookup "payload").getD (Json.obj []) = Json.obj po ∧
        po.lookup "action" = none ∧ po.lookup "commits" = none ∧
        po.lookup "ref_type" = none ∧ po.lookup "ref" = none ∧
        (po.lookup "issue" = none ∨
          ∃ io, po.lookup "issue" = some (Json.obj io) ∧ io.lookup "title" = none) ∧
        (po.lookup "pull_request" = none ∨
          ∃ pq, po.lookup "pull_request" = some (Json.obj pq) ∧
            pq.lookup "title" = none) ∧
        (po.lookup "forkee" = none ∨
          ∃ fo, po.lookup "forkee" = some (Json.obj fo) ∧
            fo.lookup "full_name" = none) ∧
        (po.lookup "release" = none ∨
          ∃ rl, po.lookup "release" = some (Json.obj rl) ∧
            rl.lookup "tag_name" = none) := by
    rcases hp with h0 | ⟨po, hpo, rest⟩
    · exact ⟨[], by rw [h0]; rfl, rfl, rfl, rfl, rfl, Or.inl rfl, Or.inl rfl,
        Or.inl rfl, Or.inl rfl⟩
    · exact ⟨po, by rw [hpo]; rfl, rest⟩
  have hg4 : pyGet (Json.obj l) "payload" (Json.obj []) = Except.ok (Json.obj po) := by
    show Except.ok ((l.lookup "payload").getD (Json.obj [])) = Except.ok (Json.obj po)
    rw [hpo]
  have hg2 : pyGet (Json.obj l) "repo" (Json.obj []) =
      Except.ok ((l.lookup "repo").getD (Json.obj [])) := rfl
  have hA1 : pyGet (Json.obj po) "action" Json.null = Except.ok Json.null := by
    show Except.ok ((po.lookup "action").getD Json.null) = Except.ok Json.null
    rw [ha]
    rfl
  have hA2 : pyGet (Json.obj po) "action" (Json.str "started") =
      Except.ok (Json.str "started") := by
    show Except.ok ((po.lookup "action").getD (Json.str "started")) =
      Except.ok (Json.str "started")
    rw [ha]
    rfl
  have hC : pyGet (Json.obj po) "commits" (Json.arr []) = Except.ok (Json.arr []) := by
    show Except.ok ((po.lookup "commits").getD (Json.arr [])) = Except.ok (Json.arr [])
    rw [hc]
    rfl
  have hQ : pyGet (Json.obj po) "ref_type" Json.null = Except.ok Json.null := by
    show Except.ok ((po.lookup "ref_type").getD Json.null) = Except.ok Json.null
    rw [hq]
    rfl
  have hW : pyGet (Json.obj po) "ref" Json.null = Except.ok Json.null := by
    show Except.ok ((po.lookup "ref").getD Json.null) = Except.ok Json.null
    rw [hw]
    rfl
  have hGI : pyGet (Json.obj po) "issue" (Json.obj []) =
      Except.ok ((po.lookup "issue").getD (Json.obj [])) := rfl
  have hGP : pyGet (Json.obj po) "pull_request" (Json.obj []) =
      Except.ok ((po.lookup "pull_request").getD (Json.obj [])) := rfl
  have hGF : pyGet (Json.obj po) "forkee" (Json.obj []) =
      Except.ok ((po.lookup "forkee").getD (Json.obj [])) := rfl
  have hGR : pyGet (Json.obj po) "release" (Json.obj []) =
      Except.ok ((po.lookup "release").getD (Json.obj [])) := rfl
  have hIss : pyGet ((po.lookup "issue").getD (Json.obj [])) "title" Json.null =
      Except.ok Json.null := by
    rcases hi with h0 | ⟨io, h1, h2⟩
    · rw [h0]
      rfl
    · rw [h1]
      show Except.ok ((io.lookup "title").getD Json.null) = Except.ok Json.null
      rw [h2]
      rfl
  have hPrt : pyGet ((po.lookup "pull_request").getD (Json.obj [])) "title" Json.null =
      Except.ok Json.null := by
    rcases hpq with h0 | ⟨pq, h1, h2⟩
    · rw [h0]
      rfl
    · rw [h1]
      show Except.ok ((pq.lookup "title").getD Json.null) = Except.ok Json.null
      rw [h2]
      rfl
  have hFkt : pyGet ((po.lookup "forkee").getD (Json.obj [])) "full_name" Json.null =
      Except.ok Json.null := by
    rcases hf with h0 | ⟨fo, h1, h2⟩
    · rw [h0]
      rfl
    · rw [h1]
      show Except.ok ((fo.lookup "full_name").getD Json.null) = Except.ok Json.null
      rw [h2]
      rfl
  have hRelt : pyGet ((po.lookup "release").getD (Json.obj [])) "tag_name" Json.null =
      Except.ok Json.null := by
    rcases hrl with h0 | ⟨rl, h1, h2⟩
    · rw [h0]
      rfl
    · rw [h1]
      show Except.ok ((rl.lookup "tag_name").getD Json.null) = Except.ok Json.null
      rw [h2]
      rfl
  obtain ⟨tv, htv⟩ : ∃ tv, (l.lookup "type").getD (Json.str "UnknownEvent") = tv :=
    ⟨_, rfl⟩
  rw [htv]
  have hg1 : pyGet (Json.obj l) "type" (Json.str "UnknownEvent") = Except.ok tv := by
    show Except.ok ((l.lookup "type").getD (Json.str "UnknownEvent")) = Except.ok tv
    rw [htv]
  clear htv
  cases tv with
  | null =>
    unfold GhActivity.format_event
    simp only [hg1, hg2, hrn, hg4, except_bind_ok]
    rfl
  | bool b =>
    unfold GhActivity.format_event
    simp only [hg1, hg2, hrn, hg4, except_bind_ok]
    rfl
  | num n =>
    unfold GhActivity.format_event
    simp only [hg1, hg2, hrn, hg4, except_bind_ok]
    rfl
  | arr a =>
    unfold GhActivity.format_event
    simp only [hg1, hg2, hrn, hg4, except_bind_ok]
    rfl
  | obj o =>
    unfold GhActivity.format_event
    simp only [hg1, hg2, hrn, hg4, except_bind_ok]
    rfl
  | str t =>
    by_cases h1 : t = "PushEvent"
    · subst h1
      unfold GhActivity.format_event
      simp only [hg1, hg2, hrn, hg4, hGI, hGP, hGF, hGR, except_bind_ok,
        hA1, hA2, hC, hQ, hW, hIss, hPrt, hFkt, hRelt]
      rfl
    by_cases h2 : t = "IssuesEvent"
    · subst h2
      unfold GhActivity.format_event
      simp only [hg1, hg2, hrn, hg4, hGI, hGP, hGF, hGR, except_bind_ok,
        hA1, hA2, hC, hQ, hW, hIss, hPrt, hFkt, hRelt]
      rfl
    by_cases h3 : t = "WatchEvent"
    · subst h3
      unfold GhActivity.format_event
      simp only [hg1, hg2, hrn, hg4, hGI, hGP, hGF, hGR, except_bind_ok,
        hA1, hA2, hC, hQ, hW, hIss, hPrt, hFkt, hRelt]
      rfl
    by_cases h4 : t = "IssueCommentEvent"
    · subst h4
      unfold GhActivity.format_event
      simp only [hg1, hg2, hrn, hg4, hGI, hGP, hGF, hGR, except_bind_ok,
        hA1, hA2, hC, hQ, hW, hIss, hPrt, hFkt, hRelt]
      rfl
    by_cases h5 : t = "PullRequestEvent"
    · subst h5
      unfold GhActivity.format_event
      simp only [hg1, hg2, hrn, hg4, hGI, hGP, hGF, hGR, except_bind_ok,
        hA1, hA2, hC, hQ, hW, hIss, hPrt, hFkt, hRelt]
      rfl
    by_cases h6 : t = "PullRequestReviewCommentEvent"
    · subst h6
      unfold GhActivity.format_event
      simp only [hg1, hg2, hrn, hg4, hGI, hGP, hGF, hGR, except_bind_ok,
        hA1, hA2, hC, hQ, hW, hIss, hPrt, hFkt, hRelt]
      rfl
    by_cases h7 : t = "CreateEvent"
    · subst h7
      unfold GhActivity.format_event
      simp only [hg1, hg2, hrn, hg4, hGI, hGP, hGF, hGR, except_bind_ok,
        hA1, hA2, hC, hQ, hW, hIss, hPrt, hFkt, hRelt]
      rfl
    by_cases h8 : t = "DeleteEvent"
    · subst h8
      unfold GhActivity.format_event
      simp only [hg1, hg2, hrn, hg4, hGI, hGP, hGF, hGR, except_bind_ok,
        hA1, hA2, hC, hQ, hW, hIss, hPrt, hFkt, hRelt]
      rfl
    by_cases h9 : t = "ForkEvent"
    · subst h9
      unfold GhActivity.format_event
      simp only [hg1, hg2, hrn, hg4, hGI, hGP, hGF, hGR, except_bind_ok,
        hA1, hA2, hC, hQ, hW, hIss, hPrt, hFkt, hRelt]
      rfl
    by_cases h10 : t = "ReleaseEvent"
    · subst h10
      unfold GhActivity.format_event
      simp only [hg1, hg2, hrn, hg4, hGI, hGP, hGF, hGR, except_bind_ok,
        hA1, hA2, hC, hQ, hW, hIss, hPrt, hFkt, hRelt]
      rfl
    by_cases h11 : t = "StarEvent"
    · subst h11
      unfold GhActivity.format_event
      simp only [hg1, hg2, hrn, hg4, hGI, hGP, hGF, hGR, except_bind_ok,
        hA1, hA2, hC, hQ, hW, hIss, hPrt, hFkt, hRelt]
      rfl
    have hb1 : (t == "PushEvent") = false := beq_eq_false_iff_ne.mpr h1
    have hb2 : (t == "IssuesEvent") = false := beq_eq_false_iff_ne.mpr h2
    have hb3 : (t == "WatchEvent") = false := beq_eq_false_iff_ne.mpr h3
    have hb4 : (t == "IssueCommentEvent") = false := beq_eq_false_iff_ne.mpr h4
    have hb5 : (t == "PullRequestEvent") = false := beq_eq_false_iff_ne.mpr h5
    have hb6 : (t == "PullRequestReviewCommentEvent") = false :=
      beq_eq_false_iff_ne.mpr h6
    have hb7 : (t == "CreateEvent") = false := beq_eq_false_iff_ne.mpr h7
    have hb8 : (t == "DeleteEvent") = false := beq_eq_false_iff_ne.mpr h8
    have hb9 : (t == "ForkEvent") = false := beq_eq_false_iff_ne.mpr h9
    have hb10 : (t == "ReleaseEvent") = false := beq_eq_false_iff_ne.mpr h10
    have hb11 : (t == "StarEvent") = false := beq_eq_false_iff_ne.mpr h11
    unfold GhActivity.format_event
    simp only [hg1, hg2, hrn, hg4, except_bind_ok, GhActivity.isTag, hb1, hb2, hb3,
      hb4, hb5, hb6, hb7, hb8, hb9, hb10, hb11, Bool.false_or,
      Bool.false_eq_true, if_false]
    simp only [GhActivity.defaultLine]
    rw [if_neg h1, if_neg h2, if_neg h3, if_neg h4, if_neg h5, if_neg h6,
      if_neg h7, if_neg h8, if_neg h9, if_neg h10, if_neg h11]
    rfl

/-- C2 witness: a concrete `IssuesEvent` carrying extra keys at every
level (an `id`, an `actor`, a `repo` object with only an `id`, a payload
with a `public` flag and an `issue` object holding only a `number`)
formats to the fully defaulted line, by the theorem above. -/
theorem c2_format_event_missing_fields_safe_witness :
    GhActivity.format_event (Json.obj [("id", Json.str "100"),
        ("type", Json.str "IssuesEvent"),
        ("actor", Json.obj [("login", Json.str "alice")]),
        ("repo", Json.obj [("id", Json.num 7)]),
        ("payload", Json.obj [("public", Json.bool true),
          ("issue", Json.obj [("number", Json.num 5)])])]) 80 =
      Except.ok "Performed issue \x27\x27 in UnknownRepo" := by
  have h := c2_format_event_missing_fields_safe [("id", Json.str "100"),
    ("type", Json.str "IssuesEvent"),
    ("actor", Json.obj [("login", Json.str "alice")]),
    ("repo", Json.obj [("id", Json.num 7)]),
    ("payload", Json.obj [("public", Json.bool true),
      ("issue", Json.obj [("number", Json.num 5)])])] "UnknownRepo" rfl
    (Or.inr ⟨[("public", Json.bool true), ("issue", Json.obj [("number", Json.num 5)])],
      rfl, rfl, rfl, rfl, rfl,
      Or.inr ⟨[("number", Json.num 5)], rfl, rfl⟩,
      Or.inl rfl, Or.inl rfl, Or.inl rfl⟩)
  exact h

/-- C2 counterexample: a `WatchEvent` whose payload carries
`"action": null` — a null nested field, squarely inside the claim —
raises `AttributeError` in `format_event` (Python evaluates
`payload.get("action", "started")` to `None` because the key is
present, then calls `None.capitalize()`), instead of degrading to the
documented default `"started"`. -/
theorem c2_null_field_counterexample :
    GhActivity.format_event
        (Json.obj [("type", Json.str "WatchEvent"),
          ("payload", Json.obj [("action", Json.null)])]) 80 =
      Except.error "AttributeError: object has no attribute capitalize" := by
  rfl

/-- C10. For every event whose type tag is `WatchEvent` (and any
`max_length`), `format_event` returns exactly what the watching branch
(lines 96-98) computes — `ACTION watching REPO` with action defaulting
to `"started"` — so the later star-alias branch (line 132), although its
condition also matches `WatchEvent`, never supplies the result. -/
theorem c10_watch_event_uses_watch_branch (l : List (String × Json)) (m : Int)
    (h : l.lookup "type" = some (Json.str "WatchEvent")) :
    GhActivity.format_event (Json.obj l) m = (do
      let r0 ← pyGet (Json.obj l) "repo" (Json.obj [])
      let repoJ ← pyGet r0 "name" (Json.str "UnknownRepo")
      let payload ← pyGet (Json.obj l) "payload" (Json.obj [])
      let a0 ← pyGet payload "action" (Json.str "started")
      let actS ← pyCapJ a0
      pure (actS ++ " watching " ++ pyStr repoJ)) := by
  have ht : pyGet (Json.obj l) "type" (Json.str "UnknownEvent") =
      Except.ok (Json.str "WatchEvent") := by simp [pyGet, h]
  unfold GhActivity.format_event
  rw [ht]
  rfl

/-- Witness for C10 at a concrete WatchEvent. -/
theorem c10_watch_event_uses_watch_branch_witness :
    GhActivity.format_event (Json.obj [("type", Json.str "WatchEvent")]) 80 =
      Except.ok "Started watching UnknownRepo" := by
  rw [c10_watch_event_uses_watch_branch [("type", Json.str "WatchEvent")] 80 rfl]
  rfl

/-- C9 counterexample: with `maxLineLength = 2` the Python slice index
`2 - 3` is negative, so `_truncate` keeps all but the last character and
appends the ellipsis: a 3-character text becomes the 5-character
`"ab..."`, exceeding the limit. -/
theorem c9_truncate_counterexample :
    GhActivity.truncJ (Json.str "abc") 2 = "ab..." ∧
    ¬ (((GhActivity.truncJ (Json.str "abc") 2).data.length : Int) ≤ 2) := by
  constructor
  · rfl
  · decide


namespace TaskCli

theorem hexVal_hexDig (d : Nat) (h : d < 16) : hexVal (hexDig d) = some d := by
  interval_cases d <;> decide

theorem hex4L_elim (v : Nat) :
    ∃ a b c d, hex4L v = [a, b, c, d] ∧ hexVal a = some (v / 4096 % 16) ∧
      hexVal b = some (v / 256 % 16) ∧ hexVal c = some (v / 16 % 16) ∧
      hexVal d = some (v % 16) :=
  ⟨_, _, _, _, rfl, hexVal_hexDig _ (by omega), hexVal_hexDig _ (by omega),
    hexVal_hexDig _ (by omega), hexVal_hexDig _ (by omega)⟩

theorem parseEscU_bmp (v : Nat) (hv : v < 65536) (hns : v < 55296 ∨ 57343 < v)
    (r : List Char) :
    parseEscU (hex4L v ++ r) = some (Char.ofNat v, r) := by
  obtain ⟨a, b, c, d, he, ha, hb, hc, hd⟩ := hex4L_elim v
  rw [he]
  simp only [List.cons_append, List.nil_append]
  simp only [parseEscU, ha, hb, hc, hd]
  have hv2 : ((v / 4096 % 16 * 16 + v / 256 % 16) * 16 + v / 16 % 16) * 16 + v % 16 = v := by
    omega
  rw [hv2, if_neg (by omega), if_neg (by omega)]

theorem parseEscU_pair (v : Nat) (hv1 : 65536 ≤ v) (hv2 : v < 1114112)
    (r : List Char) :
    parseEscU (hex4L (55296 + (v - 65536) / 1024)
      ++ '\\' :: 'u' :: hex4L (56320 + (v - 65536) % 1024) ++ r) =
      some (Char.ofNat v, r) := by
  obtain ⟨a, b, c, d, he, ha, hb, hc, hd⟩ := hex4L_elim (55296 + (v - 65536) / 1024)
  obtain ⟨a2, b2, c2, d2, he2, ha2, hb2, hc2, hd2⟩ := hex4L_elim (56320 + (v - 65536) % 1024)
  rw [he, he2]
  simp only [List.cons_append, List.nil_append]
  simp only [parseEscU, ha, hb, hc, hd, ha2, hb2, hc2, hd2]
  have hhi : (((55296 + (v - 65536) / 1024) / 4096 % 16 * 16
        + (55296 + (v - 65536) / 1024) / 256 % 16) * 16
        + (55296 + (v - 65536) / 1024) / 16 % 16) * 16
        + (55296 + (v - 65536) / 1024) % 16 = 55296 + (v - 65536) / 1024 := by
    omega
  have hlo : (((56320 + (v - 65536) % 1024) / 4096 % 16 * 16
        + (56320 + (v - 65536) % 1024) / 256 % 16) * 16
        + (56320 + (v - 65536) % 1024) / 16 % 16) * 16
        + (56320 + (v - 65536) % 1024) % 16 = 56320 + (v - 65536) % 1024 := by
    omega
  rw [hhi, hlo, if_pos (by omega)]
  rw [if_pos (show (True ∧ True) from ⟨trivial, trivial⟩), if_pos (by omega)]
  have hcm : 65536 + (55296 + (v - 65536) / 1024 - 55296) * 1024
      + (56320 + (v - 65536) % 1024 - 56320) = v := by
    omega
  rw [hcm]

end TaskCli

namespace TaskCli

theorem parseSB_backslash (f : Nat) (l : List Char) (c : Char) (r1 : List Char)
    (h : parseEsc l = some (c, r1)) :
    parseSB (f + 1) ('\\' :: l) =
      match parseSB f r1 with
      | some (s, r2) => some (c :: s, r2)
      | none => none := by
  simp only [parseSB]
  rw [if_neg (by decide), if_pos trivial, h]

theorem parseSB_plain (f : Nat) (l : List Char) (c : Char)
    (h1 : ¬ c = '"') (h2 : ¬ c = '\\') (h3 : ¬ c.toNat < 32) :
    parseSB (f + 1) (c :: l) =
      match parseSB f l with
      | some (s, r2) => some (c :: s, r2)
      | none => none := by
  simp only [parseSB]
  rw [if_neg h1, if_neg h2, if_neg h3]

theorem char_valid_nat (c : Char) :
    c.toNat < 55296 ∨ (57343 < c.toNat ∧ c.toNat < 1114112) := c.valid

theorem parseSB_escChar (c : Char) (tail : List Char) (f : Nat) :
    parseSB (f + 1) (escChar c ++ tail) =
      match parseSB f tail with
      | some (s, r2) => some (c :: s, r2)
      | none => none := by
  by_cases h1 : c = '"'
  · subst h1
    rw [(by decide : escChar '"' = ['\\', '"'])]
    exact parseSB_backslash f _ _ _ (by simp [parseEsc])
  by_cases h2 : c = '\\'
  · subst h2
    rw [(by decide : escChar '\\' = ['\\', '\\'])]
    exact parseSB_backslash f _ _ _ (by simp [parseEsc])
  by_cases h3 : c = '\x08'
  · subst h3
    rw [(by decide : escChar '\x08' = ['\\', 'b'])]
    exact parseSB_backslash f _ _ _ (by simp [parseEsc])
  by_cases h4 : c = '\x09'
  · subst h4
    rw [(by decide : escChar '\x09' = ['\\', 't'])]
    exact parseSB_backslash f _ _ _ (by simp [parseEsc])
  by_cases h5 : c = '\x0a'
  · subst h5
    rw [(by decide : escChar '\x0a' = ['\\', 'n'])]
    exact parseSB_backslash f _ _ _ (by simp [parseEsc])
  by_cases h6 : c = '\x0c'
  · subst h6
    rw [(by decide : escChar '\x0c' = ['\\', 'f'])]
    exact parseSB_backslash f _ _ _ (by simp [parseEsc])
  by_cases h7 : c = '\x0d'
  · subst h7
    rw [(by decide : escChar '\x0d' = ['\\', 'r'])]
    exact parseSB_backslash f _ _ _ (by simp [parseEsc])
  by_cases h8 : 32 ≤ c.toNat ∧ c.toNat ≤ 126
  · have hesc : escChar c = [c] := by
      unfold escChar
      rw [if_neg h1, if_neg h2, if_neg h3, if_neg h4, if_neg h5, if_neg h6,
        if_neg h7, if_pos h8]
    rw [hesc]
    exact parseSB_plain f tail c h1 h2 (by omega)
  by_cases h9 : c.toNat < 65536
  · have hesc : escChar c = '\\' :: 'u' :: hex4L c.toNat := by
      unfold escChar
      rw [if_neg h1, if_neg h2, if_neg h3, if_neg h4, if_neg h5, if_neg h6,
        if_neg h7, if_neg h8, if_pos h9]
    rw [hesc]
    refine parseSB_backslash f _ _ _ ?_
    have hns : c.toNat < 55296 ∨ 57343 < c.toNat := by
      rcases char_valid_nat c with h | ⟨h, _⟩
      · exact Or.inl h
      · exact Or.inr h
    have hu := parseEscU_bmp c.toNat h9 hns tail
    rw [Char.ofNat_toNat] at hu
    simpa [parseEsc] using hu
  · have hesc : escChar c = '\\' :: 'u' :: hex4L (55296 + (c.toNat - 65536) / 1024)
        ++ '\\' :: 'u' :: hex4L (56320 + (c.toNat - 65536) % 1024) := by
      unfold escChar
      rw [if_neg h1, if_neg h2, if_neg h3, if_neg h4, if_neg h5, if_neg h6,
        if_neg h7, if_neg h8, if_neg h9]
    rw [hesc]
    have hv2 : c.toNat < 1114112 := by
      rcases char_valid_nat c with h | ⟨_, h⟩
      · omega
      · exact h
    have hu := parseEscU_pair c.toNat (by omega) hv2 tail
    rw [Char.ofNat_toNat] at hu
    have hsh : (('\\' :: 'u' :: hex4L (55296 + (c.toNat - 65536) / 1024)
        ++ '\\' :: 'u' :: hex4L (56320 + (c.toNat - 65536) % 1024)) ++ tail)
        = '\\' :: ('u' :: (hex4L (55296 + (c.toNat - 65536) / 1024)
          ++ '\\' :: 'u' :: hex4L (56320 + (c.toNat - 65536) % 1024) ++ tail)) := by
      simp [List.append_assoc]
    rw [hsh]
    refine parseSB_backslash f _ _ _ ?_
    simpa [parseEsc] using hu

end TaskCli

namespace TaskCli

theorem escChar_length_pos (c : Char) : 1 ≤ (escChar c).length := by
  unfold escChar
  repeat' split
  all_goals simp [hex4L]

theorem escStr_length_ge (s : List Char) : s.length ≤ (escStr s).length := by
  induction s with
  | nil => exact Nat.le_refl 0
  | cons c cs ih =>
    show cs.length + 1 ≤ (escChar c ++ escStr cs).length
    rw [List.length_append]
    have := escChar_length_pos c
    omega

theorem parseSB_escStr (s : List Char) :
    ∀ (r : List Char) (f : Nat), s.length < f →
      parseSB f (escStr s ++ '"' :: r) = some (s, r) := by
  induction s with
  | nil =>
    intro r f hf
    match f, hf with
    | f + 1, _ =>
      show parseSB (f + 1) ('"' :: r) = some ([], r)
      simp only [parseSB]
      rw [if_pos trivial]
  | cons c cs ih =>
    intro r f hf
    match f, hf with
    | f + 1, hf =>
      have hsh : escStr (c :: cs) ++ '"' :: r = escChar c ++ (escStr cs ++ '"' :: r) := by
        show (escChar c ++ escStr cs) ++ '"' :: r = _
        rw [List.append_assoc]
      rw [hsh, parseSB_escChar c _ f, ih r f (by simp at hf; omega)]

theorem parseJString_dumpStrL (s : String) (r : List Char) :
    parseJString (dumpStrL s ++ r) = some (s.data, r) := by
  have hsh : dumpStrL s ++ r = '"' :: (escStr s.data ++ '"' :: r) := by
    show ('"' :: escStr s.data ++ ['"']) ++ r = _
    simp [List.append_assoc]
  rw [hsh]
  simp only [parseJString]
  rw [if_pos (show (('"' :: (escStr s.data ++ '"' :: r)).head? = some '"') from rfl)]
  refine parseSB_escStr s.data r _ ?_
  have h1 := escStr_length_ge s.data
  have h2 : s.length = s.data.length := rfl
  simp [List.length_append]
  omega

end TaskCli

namespace TaskCli

theorem isDig_natReprL (n : Nat) : ∀ c ∈ natReprL n, isDig c = true := by
  intro c hc
  unfold natReprL at hc
  by_cases h : n = 0
  · rw [if_pos h] at hc
    simp at hc
    subst hc
    decide
  · rw [if_neg h] at hc
    rcases List.mem_map.mp hc with ⟨d, hd, he⟩
    have hdlt : d < 10 :=
      Nat.digits_lt_base (by norm_num) (List.mem_reverse.mp hd)
    have hval : (Char.ofNat (48 + d)).toNat = 48 + d := by
      rw [Char.ofNat, dif_pos (show (48 + d).isValidChar from Or.inl (by omega))]
      rfl
    subst he
    simp only [isDig, hval]
    have : 48 ≤ 48 + d ∧ 48 + d ≤ 57 := by omega
    simp [this.1, this.2]

theorem natReprL_ne_nil (n : Nat) : natReprL n ≠ [] := by
  unfold natReprL
  by_cases h : n = 0
  · rw [if_pos h]
    decide
  · rw [if_neg h]
    simp [Nat.digits_ne_nil_iff_ne_zero.mpr h]

theorem takeWhile_append_of (p : Char → Bool) (l1 l2 : List Char)
    (h1 : ∀ c ∈ l1, p c = true) (h2 : ∀ c, l2.head? = some c → p c = false) :
    (l1 ++ l2).takeWhile p = l1 ∧ (l1 ++ l2).dropWhile p = l2 := by
  induction l1 with
  | nil =>
    simp only [List.nil_append]
    match l2 with
    | [] => exact ⟨rfl, rfl⟩
    | c :: r =>
      have := h2 c rfl
      constructor
      · simp [List.takeWhile, this]
      · simp [List.dropWhile, this]
  | cons c cs ih =>
    have hpc : p c = true := h1 c (List.mem_cons_self c cs)
    have hrest := ih (fun x hx => h1 x (List.mem_cons_of_mem c hx))
    constructor
    · simp [List.takeWhile, hpc, hrest.1]
    · simp [List.dropWhile, hpc, hrest.2]

theorem foldl_digit_chars (l : List Nat) (h : ∀ d ∈ l, d < 10) :
    ∀ a : Nat, (l.map (fun d => Char.ofNat (48 + d))).foldl
      (fun acc c => acc * 10 + (c.toNat - 48)) a =
      l.foldl (fun acc d => acc * 10 + d) a := by
  induction l with
  | nil => intro a; rfl
  | cons d ds ih =>
    intro a
    have hd : d < 10 := h d (List.mem_cons_self d ds)
    have hval : (Char.ofNat (48 + d)).toNat = 48 + d := by
      rw [Char.ofNat, dif_pos (show (48 + d).isValidChar from Or.inl (by omega))]
      rfl
    show (ds.map (fun d => Char.ofNat (48 + d))).foldl
        (fun acc c => acc * 10 + (c.toNat - 48)) (a * 10 + ((Char.ofNat (48 + d)).toNat - 48)) = _
    rw [hval]
    have : 48 + d - 48 = d := by omega
    rw [this]
    exact ih (fun x hx => h x (List.mem_cons_of_mem d hx)) (a * 10 + d)

theorem foldl_rev_digits (l : List Nat) :
    l.reverse.foldl (fun a d => a * 10 + d) 0 = Nat.ofDigits 10 l := by
  induction l with
  | nil => rfl
  | cons d ds ih =>
    rw [List.reverse_cons, List.foldl_append, ih, Nat.ofDigits_cons]
    show Nat.ofDigits 10 ds * 10 + d = d + 10 * Nat.ofDigits 10 ds
    ring

theorem natReprL_foldl (n : Nat) :
    (natReprL n).foldl (fun a c => a * 10 + (c.toNat - 48)) 0 = n := by
  unfold natReprL
  by_cases h : n = 0
  · rw [if_pos h, h]
    decide
  · rw [if_neg h]
    have hlt : ∀ d ∈ (Nat.digits 10 n).reverse, d < 10 := fun d hd =>
      Nat.digits_lt_base (by norm_num) (List.mem_reverse.mp hd)
    rw [foldl_digit_chars _ hlt 0, foldl_rev_digits, Nat.ofDigits_digits]

theorem parseNatL_natReprL (n : Nat) (r : List Char)
    (hr : ∀ c, r.head? = some c → isDig c = false) :
    parseNatL (natReprL n ++ r) = some (n, r) := by
  have hsp := takeWhile_append_of isDig (natReprL n) r (isDig_natReprL n) hr
  unfold parseNatL
  rw [hsp.1, hsp.2]
  rw [if_neg (by simp [natReprL_ne_nil n])]
  rw [natReprL_foldl]

end TaskCli

namespace TaskCli

theorem natReprL_head_not_minus (n : Nat) :
    ∀ c, (natReprL n).head? = some c → ¬ c = '-' := by
  intro c hc he
  subst he
  have hmem : '-' ∈ natReprL n := by
    match hne : natReprL n with
    | [] => exact absurd hne (natReprL_ne_nil n)
    | d :: ds =>
      rw [hne] at hc
      simp at hc
      rw [hc]
      exact List.mem_cons_self '-' ds
  have hd := isDig_natReprL n '-' hmem
  exact absurd hd (by decide)

theorem intReprL_parse (n : Int) (r : List Char)
    (hr : ∀ c, r.head? = some c → isDig c = false) :
    parseIntL (intReprL n ++ r) = some (n, r) := by
  unfold intReprL
  by_cases h : n < 0
  · rw [if_pos h]
    have hup : parseIntL (('-' :: natReprL n.natAbs) ++ r) =
        parseIntL ('-' :: (natReprL n.natAbs ++ r)) := rfl
    rw [hup]
    unfold parseIntL
    rw [if_pos (show (('-' :: (natReprL n.natAbs ++ r)).head? = some '-') from rfl)]
    show ((parseNatL (natReprL n.natAbs ++ r)).bind fun np =>
      some (-(np.1 : Int), np.2)) = some (n, r)
    rw [parseNatL_natReprL n.natAbs r hr]
    have hn : -((n.natAbs : Nat) : Int) = n := by omega
    show some (-((n.natAbs : Nat) : Int), r) = some (n, r)
    rw [hn]
  · rw [if_neg h]
    unfold parseIntL
    have hhead : ¬ ((natReprL n.toNat ++ r).head? = some '-') := by
      match hne : natReprL n.toNat with
      | [] => exact absurd hne (natReprL_ne_nil n.toNat)
      | d :: ds =>
        simp only [List.cons_append, List.head?_cons]
        intro hcon
        simp at hcon
        exact natReprL_head_not_minus n.toNat d (by rw [hne]; rfl) hcon
    rw [if_neg hhead]
    rw [parseNatL_natReprL n.toNat r hr]
    have hn : ((n.toNat : Nat) : Int) = n := by omega
    show some (((n.toNat : Nat) : Int), r) = some (n, r)
    rw [hn]

end TaskCli


namespace TaskCli

theorem option_some_bind {α β : Type} (a : α) (f : α → Option β) :
    (some a).bind f = f a := rfl

theorem skipWs_head_not_ws (l : List Char) (c : Char) (hh : l.head? = some c)
    (h : isWs c = false) : skipWs l = l := by
  match l with
  | [] => rfl
  | d :: r =>
    have hd : d = c := by
      simp only [List.head?_cons] at hh
      exact Option.some.inj hh
    subst hd
    simp [skipWs, List.dropWhile, h]

theorem skipWs_cons_ws (c : Char) (l : List Char) (h : isWs c = true) :
    skipWs (c :: l) = skipWs l := by
  simp [skipWs, List.dropWhile, h]

theorem isDig_not_ws (c : Char) (h : isDig c = true) : isWs c = false := by
  by_cases h1 : c = ' '
  · subst h1; simp [isDig] at h
  by_cases h2 : c = '\t'
  · subst h2; simp [isDig] at h
  by_cases h3 : c = '\n'
  · subst h3; simp [isDig] at h
  by_cases h4 : c = '\r'
  · subst h4; simp [isDig] at h
  simp [isWs, h1, h2, h3, h4]

theorem skipWs_intReprL (n : Int) (r : List Char) :
    skipWs (intReprL n ++ r) = intReprL n ++ r := by
  unfold intReprL
  by_cases h : n < 0
  · rw [if_pos h]
    exact skipWs_head_not_ws _ '-' rfl (by decide)
  · rw [if_neg h]
    match hne : natReprL n.toNat with
    | [] => exact absurd hne (natReprL_ne_nil n.toNat)
    | d :: ds =>
      have hd : isDig d = true :=
        isDig_natReprL n.toNat d (by rw [hne]; exact List.mem_cons_self d ds)
      exact skipWs_head_not_ws _ d rfl (isDig_not_ws d hd)

theorem parseVal_str (s : String) (r : List Char) :
    parseVal (dumpStrL s ++ r) = some (PVal.ps s, r) := by
  unfold parseVal
  rw [if_pos (show ((dumpStrL s ++ r).head? = some '"') from rfl)]
  rw [parseJString_dumpStrL s r]
  rfl

theorem parseVal_int (n : Int) (r : List Char)
    (hr : ∀ c, r.head? = some c → isDig c = false) :
    parseVal (intReprL n ++ r) = some (PVal.pi n, r) := by
  unfold parseVal
  have hq : ¬ ((intReprL n ++ r).head? = some '"') := by
    intro hcon
    unfold intReprL at hcon
    by_cases h : n < 0
    · rw [if_pos h] at hcon
      simp at hcon
    · rw [if_neg h] at hcon
      match hne : natReprL n.toNat with
      | [] => exact absurd hne (natReprL_ne_nil n.toNat)
      | d :: ds =>
        rw [hne] at hcon
        simp at hcon
        have hd : isDig d = true :=
          isDig_natReprL n.toNat d (by rw [hne]; exact List.mem_cons_self d ds)
        rw [hcon] at hd
        simp [isDig] at hd
  rw [if_neg hq]
  rw [intReprL_parse n r hr]
  rfl

end TaskCli

namespace TaskCli

theorem parseMember_enc (k : String) (vL : List Char) (v : PVal) (rest : List Char)
    (hv : parseVal (vL ++ rest) = some (v, rest))
    (hnw : skipWs (vL ++ rest) = vL ++ rest) :
    parseMember (dumpStrL k ++ ':' :: ' ' :: (vL ++ rest)) = some ((k, v), rest) := by
  unfold parseMember
  rw [skipWs_head_not_ws (dumpStrL k ++ ':' :: ' ' :: (vL ++ rest)) '"' rfl (by decide)]
  rw [parseJString_dumpStrL k (':' :: ' ' :: (vL ++ rest))]
  rw [option_some_bind]
  rw [skipWs_head_not_ws (':' :: ' ' :: (vL ++ rest)) ':' rfl (by decide)]
  rw [if_pos (show ((':' :: ' ' :: (vL ++ rest)).head? = some ':') from rfl)]
  have h2 : skipWs ((':' :: ' ' :: (vL ++ rest)).tail) = vL ++ rest := by
    show skipWs (' ' :: (vL ++ rest)) = vL ++ rest
    rw [skipWs_cons_ws ' ' _ (by decide)]
    exact hnw
  rw [h2, hv, option_some_bind]

end TaskCli

namespace TaskCli

theorem skipWs_append_ws (pre : List Char) (h : ∀ c ∈ pre, isWs c = true)
    (l : List Char) : skipWs (pre ++ l) = skipWs l := by
  induction pre with
  | nil => rfl
  | cons c cs ih =>
    have hc : isWs c = true := h c (List.mem_cons_self c cs)
    show skipWs (c :: (cs ++ l)) = skipWs l
    rw [skipWs_cons_ws c _ hc]
    exact ih (fun x hx => h x (List.mem_cons_of_mem c hx))

theorem parseMembers_round (f : Nat) (k : String) (vL : List Char) (v : PVal)
    (R0 : List Char)
    (hv : parseVal (vL ++ R0) = some (v, R0))
    (hnw : skipWs (vL ++ R0) = vL ++ R0) :
    parseMembers (f + 1) ('\n' :: (ind8 ++ memberL k vL R0)) =
      (if (skipWs R0).head? = some ',' then
        (parseMembers f (skipWs R0).tail).bind (fun msp =>
          some ((k, v) :: msp.1, msp.2))
      else if (skipWs R0).head? = some '\x7d' then some ([(k, v)], (skipWs R0).tail)
      else none) := by
  have h0 : skipWs ('\n' :: (ind8 ++ memberL k vL R0)) = memberL k vL R0 := by
    rw [skipWs_cons_ws '\n' _ (by decide), skipWs_append_ws ind8 (by decide)]
    exact skipWs_head_not_ws _ '"' rfl (by decide)
  simp only [parseMembers]
  rw [h0]
  rw [if_neg (show ¬ ((memberL k vL R0).head? = some '\x7d') from by
    rw [show ((memberL k vL R0).head? = some '\x7d') = (some '"' = some '\x7d') from rfl]
    decide)]
  rw [show parseMember (memberL k vL R0) = some ((k, v), R0) from
    parseMember_enc k vL v R0 hv hnw]
  rw [option_some_bind]

end TaskCli

namespace TaskCli

theorem head_not_dig_memSep (x : List Char) :
    ∀ c, (memSep ++ x).head? = some c → isDig c = false := by
  intro c hc
  rw [show ((memSep ++ x).head? = some c) = (some ',' = some c) from rfl] at hc
  have : c = ',' := (Option.some.inj hc).symm
  subst this
  decide

theorem skipWs_memSep (x : List Char) : skipWs (memSep ++ x) = memSep ++ x :=
  skipWs_head_not_ws _ ',' rfl (by decide)

theorem parseMembers_task (t : Task) (rest : List Char) (f : Nat) :
    parseMembers (f + 1 + 1 + 1 + 1 + 1)
      ('\n' :: (ind8 ++ memberL "id" (intReprL t.id)
        (memSep ++ memberL "description" (dumpStrL t.description)
          (memSep ++ memberL "status" (dumpStrL t.status)
            (memSep ++ memberL "created_at" (dumpStrL t.created_at)
              (memSep ++ memberL "updated_at" (dumpStrL t.updated_at)
                ('\n' :: ' ' :: ' ' :: ' ' :: ' ' :: '\x7d' :: rest))))))) =
      some (taskMembers t, rest) := by
  have hR5 : skipWs ('\n' :: ' ' :: ' ' :: ' ' :: ' ' :: '\x7d' :: rest) =
      '\x7d' :: rest := by
    rw [skipWs_cons_ws '\n' _ (by decide), skipWs_cons_ws ' ' _ (by decide),
      skipWs_cons_ws ' ' _ (by decide), skipWs_cons_ws ' ' _ (by decide),
      skipWs_cons_ws ' ' _ (by decide)]
    exact skipWs_head_not_ws _ '\x7d' rfl (by decide)
  rw [parseMembers_round (f + 1 + 1 + 1 + 1) "id" (intReprL t.id) (PVal.pi t.id) _
    (parseVal_int t.id _ (head_not_dig_memSep _)) (skipWs_intReprL t.id _)]
  rw [skipWs_memSep]
  rw [if_pos (show ((memSep ++ memberL "description" (dumpStrL t.description)
      (memSep ++ memberL "status" (dumpStrL t.status)
        (memSep ++ memberL "created_at" (dumpStrL t.created_at)
          (memSep ++ memberL "updated_at" (dumpStrL t.updated_at)
            ('\n' :: ' ' :: ' ' :: ' ' :: ' ' :: '\x7d' :: rest))))).head? = some ',')
    from rfl)]
  rw [show ((memSep ++ memberL "description" (dumpStrL t.description)
      (memSep ++ memberL "status" (dumpStrL t.status)
        (memSep ++ memberL "created_at" (dumpStrL t.created_at)
          (memSep ++ memberL "updated_at" (dumpStrL t.updated_at)
            ('\n' :: ' ' :: ' ' :: ' ' :: ' ' :: '\x7d' :: rest)))))).tail =
    '\n' :: (ind8 ++ memberL "description" (dumpStrL t.description)
      (memSep ++ memberL "status" (dumpStrL t.status)
        (memSep ++ memberL "created_at" (dumpStrL t.created_at)
          (memSep ++ memberL "updated_at" (dumpStrL t.updated_at)
            ('\n' :: ' ' :: ' ' :: ' ' :: ' ' :: '\x7d' :: rest))))) from rfl]
  rw [parseMembers_round (f + 1 + 1 + 1) "description" (dumpStrL t.description)
    (PVal.ps t.description) _ (parseVal_str t.description _)
    (skipWs_head_not_ws _ '"' rfl (by decide))]
  rw [skipWs_memSep]
  rw [if_pos (show ((memSep ++ memberL "status" (dumpStrL t.status)
      (memSep ++ memberL "created_at" (dumpStrL t.created_at)
        (memSep ++ memberL "updated_at" (dumpStrL t.updated_at)
          ('\n' :: ' ' :: ' ' :: ' ' :: ' ' :: '\x7d' :: rest)))).head? = some ',')
    from rfl)]
  rw [show ((memSep ++ memberL "status" (dumpStrL t.status)
      (memSep ++ memberL "created_at" (dumpStrL t.created_at)
        (memSep ++ memberL "updated_at" (dumpStrL t.updated_at)
          ('\n' :: ' ' :: ' ' :: ' ' :: ' ' :: '\x7d' :: rest))))).tail =
    '\n' :: (ind8 ++ memberL "status" (dumpStrL t.status)
      (memSep ++ memberL "created_at" (dumpStrL t.created_at)
        (memSep ++ memberL "updated_at" (dumpStrL t.updated_at)
          ('\n' :: ' ' :: ' ' :: ' ' :: ' ' :: '\x7d' :: rest)))) from rfl]
  rw [parseMembers_round (f + 1 + 1) "status" (dumpStrL t.status)
    (PVal.ps t.status) _ (parseVal_str t.status _)
    (skipWs_head_not_ws _ '"' rfl (by decide))]
  rw [skipWs_memSep]
  rw [if_pos (show ((memSep ++ memberL "created_at" (dumpStrL t.created_at)
      (memSep ++ memberL "updated_at" (dumpStrL t.updated_at)
        ('\n' :: ' ' :: ' ' :: ' ' :: ' ' :: '\x7d' :: rest))).head? = some ',')
    from rfl)]
  rw [show ((memSep ++ memberL "created_at" (dumpStrL t.created_at)
      (memSep ++ memberL "updated_at" (dumpStrL t.updated_at)
        ('\n' :: ' ' :: ' ' :: ' ' :: ' ' :: '\x7d' :: rest)))).tail =
    '\n' :: (ind8 ++ memberL "created_at" (dumpStrL t.created_at)
      (memSep ++ memberL "updated_at" (dumpStrL t.updated_at)
        ('\n' :: ' ' :: ' ' :: ' ' :: ' ' :: '\x7d' :: rest))) from rfl]
  rw [parseMembers_round (f + 1) "created_at" (dumpStrL t.created_at)
    (PVal.ps t.created_at) _ (parseVal_str t.created_at _)
    (skipWs_head_not_ws _ '"' rfl (by decide))]
  rw [skipWs_memSep]
  rw [if_pos (show ((memSep ++ memberL "updated_at" (dumpStrL t.updated_at)
      ('\n' :: ' ' :: ' ' :: ' ' :: ' ' :: '\x7d' :: rest)).head? = some ',')
    from rfl)]
  rw [show ((memSep ++ memberL "updated_at" (dumpStrL t.updated_at)
      ('\n' :: ' ' :: ' ' :: ' ' :: ' ' :: '\x7d' :: rest))).tail =
    '\n' :: (ind8 ++ memberL "updated_at" (dumpStrL t.updated_at)
      ('\n' :: ' ' :: ' ' :: ' ' :: ' ' :: '\x7d' :: rest)) from rfl]
  rw [parseMembers_round f "updated_at" (dumpStrL t.updated_at)
    (PVal.ps t.updated_at) _ (parseVal_str t.updated_at _)
    (skipWs_head_not_ws _ '"' rfl (by decide))]
  rw [hR5]
  rw [if_neg (show ¬ (('\x7d' :: rest).head? = some ',') from by
    rw [show (('\x7d' :: rest).head? = some ',') = (some '\x7d' = some ',') from rfl]
    decide)]
  rw [if_pos (show (('\x7d' :: rest).head? = some '\x7d') from rfl)]
  rfl

end TaskCli

namespace TaskCli

theorem parseObj_shape (pre M : List Char) (hpre : ∀ c ∈ pre, isWs c = true) :
    parseObj (pre ++ (' ' :: ' ' :: ' ' :: ' ' :: '\x7b' :: '\n' :: (ind8 ++ M))) =
      parseMembers (M.length + 10) ('\n' :: (ind8 ++ M)) := by
  unfold parseObj
  rw [skipWs_append_ws pre hpre]
  rw [skipWs_cons_ws ' ' _ (by decide), skipWs_cons_ws ' ' _ (by decide),
    skipWs_cons_ws ' ' _ (by decide), skipWs_cons_ws ' ' _ (by decide)]
  rw [skipWs_head_not_ws ('\x7b' :: '\n' :: (ind8 ++ M)) '\x7b' rfl (by decide)]
  rw [if_pos (show (('\x7b' :: '\n' :: (ind8 ++ M)).head? = some '\x7b') from rfl)]
  rw [show ('\x7b' :: '\n' :: (ind8 ++ M)).tail = '\n' :: (ind8 ++ M) from rfl]
  rw [show ('\n' :: (ind8 ++ M)).length + 1 = M.length + 10 from by simp [ind8]]

theorem parseObj_dumpTask (t : Task) (pre R : List Char)
    (hpre : ∀ c ∈ pre, isWs c = true) :
    parseObj (pre ++ dumpTaskL t R) = some (taskMembers t, R) := by
  unfold dumpTaskL
  rw [parseObj_shape pre _ hpre]
  rw [show (memberL "id" (intReprL t.id)
      (memSep ++ memberL "description" (dumpStrL t.description)
        (memSep ++ memberL "status" (dumpStrL t.status)
          (memSep ++ memberL "created_at" (dumpStrL t.created_at)
            (memSep ++ memberL "updated_at" (dumpStrL t.updated_at)
              ('\n' :: ' ' :: ' ' :: ' ' :: ' ' :: '\x7d' :: R)))))).length + 10
    = ((memberL "id" (intReprL t.id)
      (memSep ++ memberL "description" (dumpStrL t.description)
        (memSep ++ memberL "status" (dumpStrL t.status)
          (memSep ++ memberL "created_at" (dumpStrL t.created_at)
            (memSep ++ memberL "updated_at" (dumpStrL t.updated_at)
              ('\n' :: ' ' :: ' ' :: ' ' :: ' ' :: '\x7d' :: R)))))).length + 5)
      + 1 + 1 + 1 + 1 + 1 from by omega]
  exact parseMembers_task t R _

end TaskCli

namespace TaskCli

theorem decodeTask_taskMembers (t : Task) : decodeTask (taskMembers t) = some t := rfl

theorem parseItems_succ (fuel : Nat) (l : List Char) :
    parseItems (fuel + 1) l =
      (parseObj l).bind (fun op =>
        (decodeTask op.1).bind (fun t =>
          if (skipWs op.2).head? = some ',' then
            (parseItems fuel (skipWs op.2).tail).bind (fun tsp =>
              some (t :: tsp.1, tsp.2))
          else if (skipWs op.2).head? = some ']' then some ([t], (skipWs op.2).tail)
          else none)) := rfl

theorem parseItems_dump (ts : List Task) (hne : ts ≠ []) :
    ∀ (f : Nat) (pre after : List Char), (∀ c ∈ pre, isWs c = true) →
      parseItems (f + ts.length) (pre ++ dumpItemsL ts ('\n' :: ']' :: after)) =
        some (ts, after) := by
  induction ts with
  | nil => exact absurd rfl hne
  | cons t ts' ih =>
    intro f pre after hpre
    match ts' with
    | [] =>
      show parseItems (f + 1) (pre ++ dumpTaskL t ('\n' :: ']' :: after)) = some ([t], after)
      rw [parseItems_succ]
      rw [parseObj_dumpTask t pre _ hpre, option_some_bind,
        decodeTask_taskMembers, option_some_bind]
      rw [skipWs_cons_ws '\n' _ (by decide)]
      rw [skipWs_head_not_ws (']' :: after) ']' rfl (by decide)]
      rw [if_neg (show ¬ ((']' :: after).head? = some ',') from by
        rw [show ((']' :: after).head? = some ',') = (some ']' = some ',') from rfl]
        decide)]
      rw [if_pos (show ((']' :: after).head? = some ']') from rfl)]
      rfl
    | u :: us =>
      show parseItems ((f + (u :: us).length) + 1)
        (pre ++ dumpTaskL t (',' :: '\n' :: dumpItemsL (u :: us) ('\n' :: ']' :: after)))
        = some (t :: u :: us, after)
      rw [parseItems_succ]
      rw [parseObj_dumpTask t pre _ hpre, option_some_bind,
        decodeTask_taskMembers, option_some_bind]
      rw [skipWs_head_not_ws (',' :: '\n' :: dumpItemsL (u :: us) ('\n' :: ']' :: after))
        ',' rfl (by decide)]
      rw [if_pos (show ((',' :: '\n' :: dumpItemsL (u :: us) ('\n' :: ']' :: after)).head?
        = some ',') from rfl)]
      rw [show (',' :: '\n' :: dumpItemsL (u :: us) ('\n' :: ']' :: after)).tail
        = ['\n'] ++ dumpItemsL (u :: us) ('\n' :: ']' :: after) from rfl]
      rw [ih (by simp) f ['\n'] after (by decide)]
      rw [option_some_bind]

end TaskCli

namespace TaskCli

theorem skipWs_head_of_cons (c : Char) (l : List Char) (h : isWs c = false) :
    (skipWs (c :: l)).head? = some c := by
  rw [skipWs_head_not_ws (c :: l) c rfl h]
  rfl

theorem skipWs_dumpTaskL_head (t : Task) (R : List Char) :
    (skipWs (dumpTaskL t R)).head? = some '\x7b' := by
  unfold dumpTaskL
  rw [skipWs_cons_ws ' ' _ (by decide), skipWs_cons_ws ' ' _ (by decide),
    skipWs_cons_ws ' ' _ (by decide), skipWs_cons_ws ' ' _ (by decide)]
  exact skipWs_head_of_cons '\x7b' _ (by decide)

theorem skipWs_dumpItemsL_head (ts : List Task) (hne : ts ≠ []) (R : List Char) :
    (skipWs (dumpItemsL ts R)).head? = some '\x7b' := by
  match ts with
  | [] => exact absurd rfl hne
  | [t] => exact skipWs_dumpTaskL_head t R
  | t :: u :: us => exact skipWs_dumpTaskL_head t _

theorem dumpTaskL_length_ge (t : Task) (R : List Char) :
    R.length + 1 ≤ (dumpTaskL t R).length := by
  simp [dumpTaskL, memberL, memSep, ind8, dumpStrL, List.length_append]
  omega

theorem dumpItemsL_length_ge (ts : List Task) :
    ∀ R : List Char, ts.length + R.length ≤ (dumpItemsL ts R).length := by
  induction ts with
  | nil =>
    intro R
    simp [dumpItemsL]
  | cons t ts' ih =>
    intro R
    match ts' with
    | [] =>
      show [t].length + R.length ≤ (dumpTaskL t R).length
      have := dumpTaskL_length_ge t R
      simp
      omega
    | u :: us =>
      show (t :: u :: us).length + R.length ≤
        (dumpTaskL t (',' :: '\n' :: dumpItemsL (u :: us) R)).length
      have h1 := dumpTaskL_length_ge t (',' :: '\n' :: dumpItemsL (u :: us) R)
      have h2 := ih R
      simp at h1 h2 ⊢
      omega

end TaskCli

/-- C8. Round-trip: the text `save_tasks` writes (the exact bytes of
`json.dump(tasks, file, indent=4)`) parses back through `load_tasks`
(`json.load`) to a task list equal to the one saved, for every list of
tasks — arbitrary ids (also negative) and arbitrary Unicode content in
the string fields, covering the `ensure_ascii` `\uXXXX` escapes and
surrogate pairs the serializer emits. -/
theorem c8_save_load_roundtrip (ts : List TaskCli.Task) :
    TaskCli.load_tasks (TaskCli.save_tasks ts) = some ts := by
  match ts with
  | [] => rfl
  | t :: ts' =>
    show TaskCli.load_tasks
      (String.mk ('[' :: '\n' :: TaskCli.dumpItemsL (t :: ts') ['\n', ']'])) = _
    unfold TaskCli.load_tasks
    rw [show (String.mk ('[' :: '\n' :: TaskCli.dumpItemsL (t :: ts') ['\n', ']'])).data
      = '[' :: '\n' :: TaskCli.dumpItemsL (t :: ts') ['\n', ']'] from rfl]
    rw [TaskCli.skipWs_head_not_ws
      ('[' :: '\n' :: TaskCli.dumpItemsL (t :: ts') ['\n', ']']) '[' rfl (by decide)]
    rw [if_pos (show (('[' :: '\n' :: TaskCli.dumpItemsL (t :: ts') ['\n', ']']).head?
      = some '[') from rfl)]
    rw [show ('[' :: '\n' :: TaskCli.dumpItemsL (t :: ts') ['\n', ']']).tail
      = '\n' :: TaskCli.dumpItemsL (t :: ts') ['\n', ']'] from rfl]
    have hhead : (TaskCli.skipWs ('\n' :: TaskCli.dumpItemsL (t :: ts') ['\n', ']'])).head?
        = some '\x7b' := by
      rw [TaskCli.skipWs_cons_ws '\n' _ (by decide)]
      exact TaskCli.skipWs_dumpItemsL_head (t :: ts') (by simp) ['\n', ']']
    rw [if_neg (show ¬ ((TaskCli.skipWs ('\n' :: TaskCli.dumpItemsL (t :: ts')
        ['\n', ']'])).head? = some ']') from by
      rw [hhead]
      decide)]
    have hlen := TaskCli.dumpItemsL_length_ge (t :: ts') ['\n', ']']
    rw [show ('\n' :: TaskCli.dumpItemsL (t :: ts') ['\n', ']']).length + 1
      = (('\n' :: TaskCli.dumpItemsL (t :: ts') ['\n', ']']).length + 1
          - (t :: ts').length) + (t :: ts').length from by
      simp at hlen ⊢
      omega]
    rw [show ('\n' :: TaskCli.dumpItemsL (t :: ts') ['\n', ']'])
      = (['\n'] ++ TaskCli.dumpItemsL (t :: ts') ('\n' :: ']' :: [])) from rfl]
    rw [TaskCli.parseItems_dump (t :: ts') (by simp) _ ['\n'] [] (by decide)]
    rfl
